import Mathlib

/-!
# Device communication and scheduling engine

A shallow embedding of `src/device/myDevice/index.js`,
`src/device/myDevice/params.js`, `src/tasking/AsyncInterval.js`,
`src/tasking/devicesTask.js` and `src/device/DeviceManager.js`.

* A JavaScript string is the list of its UTF-16 code units (`JSStr`), which is
  what `split("")`, `charCodeAt(0)` and `===` observe.
* The bitwise operators work on 32-bit integers.  A 32-bit integer is
  represented by its bit pattern, a natural number below `2 ^ 32`; `<<` keeps
  the low 32 bits (`shl32`), `^` and `&` act bit by bit.
* A listener or promise executor is the list of its effects on the promise, the
  port and the timer, in program order; the promise is settled by the first
  `resolve` or `reject` that runs.
* An object used as a map is the list of its entries; the answers of the pods,
  the enumeration of the ports and the completion order of concurrent tasks
  are inputs.
-/

namespace MyDevice

/-! ## Strings -/

/-- A JavaScript string: its UTF-16 code units. -/
abbrev JSStr := List Nat

/-- Code units of a literal whose characters all lie in the basic plane. -/
def u (s : String) : JSStr := s.toList.map Char.toNat

/-! ## Checksum codec (`index.js`, lines 173-218) -/

/-- Bit pattern of `x << n` on 32-bit integers. -/
def shl32 (x n : Nat) : Nat := (x <<< n) % 2 ^ 32

/-- Body of the `for` loop of `ComputeCRC16MSB` on the pair `(data, crc)`:
the conditional update of `crc` followed by `data <<= 1`. -/
def crcLoopBody (st : Nat × Nat) : Nat × Nat :=
  let data := st.1
  let crc := st.2
  let crc1 :=
    if ((data ^^^ crc) &&& 0x8000) ≠ 0 then 0xFFFF &&& ((shl32 crc 1) ^^^ 0x8005)
    else 0xFFFF &&& (shl32 crc 1)
  (shl32 data 1, crc1)

/-- The loop `for (var i = 0; i < 8; i++)`, by the number of passes left. -/
def crcLoop : Nat → Nat × Nat → Nat × Nat
  | 0, st => st
  | n + 1, st => crcLoop n (crcLoopBody st)

/-- The function `ComputeCRC16MSB(b, crc)`: `data = b; data <<= 8;` then eight passes. -/
def ComputeCRC16MSB (b crc : Nat) : Nat := (crcLoop 8 (shl32 b 8, crc)).2

/-- The loop of `generateChecksum` over `buffer`, started with register `acc`. -/
def generateChecksumLoop : List Nat → Nat → Nat
  | [], acc => acc
  | b :: rest, acc => generateChecksumLoop rest (ComputeCRC16MSB b acc)

/-- Value of the variable `calc` of `generateChecksum` when its loop ends:
`msg = msg.toString() + "\;"` (the escape denotes a plain semicolon), the
buffer is the code units of that string, the register starts at `0`. -/
def crcRegister (msg : JSStr) : Nat := generateChecksumLoop (msg ++ u ";") 0

/-- Digit of `Number.prototype.toString(16)`: `0-9`, then `a-f`. -/
def hexDigit (d : Nat) : Nat := if d < 10 then 48 + d else 87 + d

/-- Digits of `n` in base 16, most significant first, pushed in front of `acc`. -/
def toString16Core : Nat → Nat → JSStr → JSStr
  | 0, _, acc => acc
  | fuel + 1, n, acc =>
    let acc1 := hexDigit (n % 16) :: acc
    if n / 16 = 0 then acc1 else toString16Core fuel (n / 16) acc1

/-- The string `n.toString(16)` for a non-negative integer `n`. -/
def toString16 (n : Nat) : JSStr := toString16Core (n + 1) n []

/-- The method `String.prototype.toUpperCase` on the letters `a-z`; other code units are
kept, which is what the method does on the digits produced by `toString(16)`. -/
def toUpperCase (s : JSStr) : JSStr := s.map fun c => if 97 ≤ c ∧ c ≤ 122 then c - 32 else c

/-- The string `s.padStart(len, fill)` with a one-character filler. -/
def padStart (s : JSStr) (len fill : Nat) : JSStr := List.replicate (len - s.length) fill ++ s

/-- The function `generateChecksum(msg)`. -/
def generateChecksum (msg : JSStr) : JSStr :=
  let acc := crcRegister msg
  let result := toUpperCase (toString16 acc)
  padStart result 4 48

/-- The function `validate_checksum(msg, checksum)`: `generateChecksum(msg) === checksum`. -/
def validate_checksum (msg checksum : JSStr) : Bool := decide (generateChecksum msg = checksum)

/-! ### Reference definitions for the codec -/

/-- Upper-case hexadecimal digit: `0-9`, then `A-F`. -/
def hexDigitUpper (d : Nat) : Nat := if d < 10 then 48 + d else 55 + d

/-- Reference rendering: the four upper-case hexadecimal digits of `n`, most
significant first (leading zeros included). -/
def hex4 (n : Nat) : JSStr :=
  [hexDigitUpper (n / 4096 % 16), hexDigitUpper (n / 256 % 16), hexDigitUpper (n / 16 % 16),
    hexDigitUpper (n % 16)]

/-- Whether a code unit is one of `0-9`, `A-F`. -/
def isUpperHex (c : Nat) : Prop := (48 ≤ c ∧ c ≤ 57) ∨ (65 ≤ c ∧ c ≤ 70)

/-- The string `s` with bit `k` of its character at index `i` flipped. -/
def flipBit (s : JSStr) (i k : Nat) : JSStr := s.modify (fun c => c ^^^ 2 ^ k) i

/-! ### Polynomials over GF(2)

A polynomial over GF(2) is encoded by the natural number whose bit `i` is the
coefficient of `x ^ i`: addition is `^^^`, multiplication by `x ^ n` is `<<< n`. -/

/-- The generator polynomial `x^16 + x^15 + x^2 + 1`. -/
def crcGenerator : Nat := 2 ^ 16 + 2 ^ 15 + 2 ^ 2 + 1

/-- Number of binary digits of `a` (`0` for `0`): one more than the degree. -/
def bitLengthAux : Nat → Nat → Nat
  | 0, _ => 0
  | fuel + 1, a => if a = 0 then 0 else bitLengthAux fuel (a / 2) + 1

/-- Number of binary digits of `a`. -/
def bitLength (a : Nat) : Nat := bitLengthAux a a

/-- Long division by `g` of degree `d`: cancel the coefficients of `a` at the
degrees `d + n - 1`, ..., `d`, highest first, by adding `g * x ^ i`. -/
def gf2ModAux (g d : Nat) : Nat → Nat → Nat
  | 0, a => a
  | n + 1, a => gf2ModAux g d n (if a.testBit (d + n) then a ^^^ (g <<< n) else a)

/-- Remainder of the polynomial `a` modulo the polynomial `g` over GF(2). -/
def gf2Mod (a g : Nat) : Nat :=
  gf2ModAux g (bitLength g - 1) (bitLength a - (bitLength g - 1)) a

/-- Quotient of the long division of `gf2ModAux`. -/
def gf2DivAux (g d : Nat) : Nat → Nat → Nat
  | 0, _ => 0
  | n + 1, a =>
    if a.testBit (d + n) then 2 ^ n + gf2DivAux g d n (a ^^^ (g <<< n)) else gf2DivAux g d n a

/-- Product of the polynomials `q` and `g` over GF(2), `q` of degree below `n`. -/
def gf2MulAux (g : Nat) : Nat → Nat → Nat
  | 0, _ => 0
  | n + 1, q => (if q.testBit n then g <<< n else 0) ^^^ gf2MulAux g n q

/-- Product of the polynomials `q` and `g` over GF(2). -/
def gf2Mul (q g : Nat) : Nat := gf2MulAux g (bitLength q) q

/-! ## More string operations -/

/-- The array `s.split(sep)` for a one-character separator: the segments between the
occurrences of `sep`; never empty. -/
def split (sep : Nat) : JSStr → List JSStr
  | [] => [[]]
  | c :: cs =>
    if c = sep then [] :: split sep cs
    else
      match split sep cs with
      | [] => [[c]]
      | seg :: segs => (c :: seg) :: segs

/-- White space and line terminators, the code units removed by `trim`. -/
def isWhiteSpace (c : Nat) : Bool :=
  c = 9 || c = 10 || c = 11 || c = 12 || c = 13 || c = 32 || c = 160 || c = 5760 ||
    (8192 ≤ c && c ≤ 8202) || c = 8232 || c = 8233 || c = 8239 || c = 8287 || c = 12288 ||
    c = 65279

/-- The string `s.trim()`. -/
def trim (s : JSStr) : JSStr := ((s.dropWhile isWhiteSpace).reverse.dropWhile isWhiteSpace).reverse

/-- Decimal digits of `n`, most significant first, pushed in front of `acc`. -/
def toString10Core : Nat → Nat → JSStr → JSStr
  | 0, _, acc => acc
  | fuel + 1, n, acc =>
    let acc1 := (48 + n % 10) :: acc
    if n / 10 = 0 then acc1 else toString10Core fuel (n / 10) acc1

/-- The string `String(n)` for a non-negative integer `n`. -/
def toString10 (n : Nat) : JSStr := toString10Core (n + 1) n []

/-! ## Promises, port and timer

The functions of the client act on a promise (`resolve`, `reject`), on the
port (`write`, `close`) and on a timer.  A handler is embedded as the list of
its effects in program order.

* A promise is settled by the first call of `resolve` or `reject`; later calls
  do nothing.
* `self.port.close(cb)` asks the port to close; `cb` runs once the handler that
  called `close` has returned, never inside the call.  The callbacks of several
  `close` calls run in the order of the calls, and before the next `data` event
  is handled.
* The write succeeds (`err` is not set in the callback of `write`) and the
  frame arrives before the timer fires. -/

/-- Values a promise is resolved or rejected with. -/
inductive Value
  | undefined
  | text (s : JSStr)
  | raw (data : JSStr)
  | items (l : List JSStr)
  | typeError
  deriving DecidableEq, Repr

/-- What a handler or a callback does to the promise and the timer. -/
inductive Act
  | clearTimeout
  | resolve (v : Value)
  | reject (reason : Value)
  deriving DecidableEq, Repr

/-- Effects of a handler, in program order. -/
inductive Effect
  | now (a : Act)
  | close (cb : List Act)
  | setTimeout (ms : Nat)
  | write (command : JSStr)
  deriving DecidableEq, Repr

/-- State of a promise. -/
inductive Outcome
  | pending
  | resolved (v : Value)
  | rejected (reason : Value)
  deriving DecidableEq, Repr

/-- The first settlement wins. -/
def settleWith : Outcome → Act → Outcome
  | Outcome.pending, Act.resolve v => Outcome.resolved v
  | Outcome.pending, Act.reject r => Outcome.rejected r
  | o, _ => o

/-- The acts a handler performs itself, in order. -/
def syncActs : List Effect → List Act
  | [] => []
  | Effect.now a :: rest => a :: syncActs rest
  | _ :: rest => syncActs rest

/-- The acts of the callbacks handed to `close`, in the order of the calls. -/
def closeCallbacks : List Effect → List Act
  | [] => []
  | Effect.close cb :: rest => cb ++ closeCallbacks rest
  | _ :: rest => closeCallbacks rest

/-- All acts in execution order: the handler first, then the callbacks. -/
def actsInOrder (effs : List Effect) : List Act := syncActs effs ++ closeCallbacks effs

/-- The promise after a handler with effects `effs` and its callbacks have run. -/
def settle (o : Outcome) (effs : List Effect) : Outcome := (actsInOrder effs).foldl settleWith o

/-- Whether the handler asked the port to close. -/
def closesPort : List Effect → Bool
  | [] => false
  | Effect.close _ :: _ => true
  | _ :: rest => closesPort rest

/-- The commands written to the port, in order. -/
def written : List Effect → List JSStr
  | [] => []
  | Effect.write c :: rest => c :: written rest
  | _ :: rest => written rest

/-- Reason `"Command: " + command.toString().trim() + "not properly acknowledged."`. -/
def notAcknowledged (command : JSStr) : Value :=
  Value.text (u "Command: " ++ trim command ++ u "not properly acknowledged.")

/-- The `data` listener of `simple_call` on a received frame (`data.toString('utf8')`).
`none` when `msg[1]` is undefined and `msg[1].trim()` throws. -/
def simple_call (command : JSStr) (closeAfter : Bool) (frame : JSStr) : Option (List Effect) :=
  let msg := split 59 frame
  match msg.get? 1 with
  | none => none
  | some seg =>
    let checksum := trim seg
    let msg0 := msg.headD []
    let info := split 44 msg0
    some (
      (if info.head? = some (u "!NACK") then
        [Effect.close [Act.clearTimeout, Act.reject (notAcknowledged command)]] else []) ++
      (if !validate_checksum msg0 checksum then
        [Effect.close [Act.clearTimeout,
          Act.reject (Value.text (u "Invalid Checksum returned from Pod."))]] else []) ++
      (if closeAfter then [Effect.close [Act.clearTimeout, Act.resolve (Value.raw frame)]]
       else [Effect.now Act.clearTimeout, Effect.now (Act.resolve (Value.raw frame))]))

/-- What `data_call` and `data_call_no_close` do before any frame arrives: arm the
10 s timer and write the command. -/
def data_call_start (command : JSStr) : List Effect :=
  [Effect.setTimeout 10000, Effect.write command]

/-- The value `this.idle`. -/
def idle : JSStr := u "!STATUS,IDLE"

/-- State of a running `long_call`: the array `collected_data`, the promise and
whether the port was asked to close. -/
structure LongState where
  collected : List JSStr
  promise : Outcome
  closed : Bool
  deriving DecidableEq, Repr

/-- The `data` listener of `long_call` on one frame: the new `collected_data`
and the effects, in program order. -/
def long_call_onData (expected : JSStr) (collected : List JSStr) (frame : JSStr) :
    Option (List JSStr × List Effect) :=
  let msg := split 59 frame
  match msg.get? 1 with
  | none => none
  | some seg =>
    let checksum := trim seg
    let msg0 := msg.headD []
    let info := split 44 msg0
    let e1 := if !validate_checksum msg0 checksum then
      [Effect.close [Act.clearTimeout, Act.reject (Value.text (u "Invalid Checksum"))]] else []
    let e2 := if info.head? = some (u "!ACK") then []
      else if info.head? = some (u "!NACK") then
        [Effect.close [Act.clearTimeout, Act.reject (Value.text (u "Invalid Command"))]]
      else []
    let collected1 :=
      if info.head? = some (u "!ACK") then collected
      else if info.head? = some (u "!NACK") then collected
      else if info.head? = some expected then collected ++ [msg0]
      else collected
    let e3 := if msg0 = idle then
      [Effect.close [Act.clearTimeout, Act.resolve (Value.items collected1)]] else []
    some (collected1, e1 ++ e2 ++ e3)

/-- The exchange `long_call` over the frames received, in arrival order: each frame is
handled by the listener, then the callbacks of its `close` calls run. -/
def long_call (expected : JSStr) : LongState → List JSStr → Option LongState
  | st, [] => some st
  | st, frame :: rest =>
    match long_call_onData expected st.collected frame with
    | none => none
    | some (collected1, effs) =>
      long_call expected
        { collected := collected1, promise := settle st.promise effs,
          closed := st.closed || closesPort effs } rest

/-- State of `long_call` when the command has been written. -/
def long_call_init : LongState := { collected := [], promise := Outcome.pending, closed := false }

/-- The frame `payload;checksum`. -/
def frameOf (payload checksum : JSStr) : JSStr := payload ++ u ";" ++ checksum

/-- A frame `payload;checksum` with the checksum the codec gives. -/
def validFrame (payload : JSStr) : JSStr := frameOf payload (generateChecksum payload)

/-- The promise after the listener has handled its frame; still pending when the
listener threw. -/
def outcome : Option (List Effect) → Outcome
  | none => Outcome.pending
  | some effs => settle Outcome.pending effs

/-- The first comma-separated field of a payload. -/
def tag (payload : JSStr) : JSStr := (split 44 payload).headD []

/-- The frames `payload;checksum` of a list of (payload, checksum segment) pairs. -/
def framesOf (fs : List (JSStr × JSStr)) : List JSStr := fs.map fun f => frameOf f.1 f.2

/-- The payloads `long_call` collects: first field equal to the expected tag,
`!ACK` frames left out. -/
def collectable (expected : JSStr) (payload : JSStr) : Bool :=
  decide (tag payload = expected) && !decide (tag payload = u "!ACK")

/-! ## Parameter table (`params.js`) and parameter verbs (`index.js`, lines 297-340)

A parameter is passed as a string or as a number (`typeof param !== "number"`).
A value is represented by what the code observes of it: its string conversion,
used in the command and in messages, and its numeric conversion, used by the
range checks (`none` when that is `NaN`; integers only). -/

/-- The argument `param` of `getParam` and `setParam`. -/
inductive ParamRef
  | name (s : JSStr)
  | number (n : Nat)
  deriving DecidableEq, Repr

/-- The argument `value` of `setParam`. -/
structure ParamValue where
  text : JSStr
  number : Option Int
  deriving DecidableEq, Repr

/-- What `params[name]` can be: a numeric id, the function `isValid`, or
`undefined`. -/
inductive Property
  | num (n : Nat)
  | func
  | undefined
  deriving DecidableEq, Repr

/-- The object `module.exports` of `params.js`: `params[name]` for a string
`name`.  (Names inherited from `Object.prototype` are not modelled.) -/
def params (name : JSStr) : Property :=
  if name = u "SER_NUMBER" then Property.num 0
  else if name = u "LED_DRIVE" then Property.num 1
  else if name = u "GAIN_REF" then Property.num 2
  else if name = u "GAIN_PH" then Property.num 3
  else if name = u "REF_BLANK" then Property.num 4
  else if name = u "G2_BLANK" then Property.num 5
  else if name = u "isValid" then Property.func
  else Property.undefined

/-- The string `String(param)`. -/
def ParamRef.text : ParamRef → JSStr
  | ParamRef.name s => s
  | ParamRef.number n => toString10 n

/-- The test `params.hasOwnProperty(param)`: the property key is `String(param)`. -/
def hasOwnProperty (param : ParamRef) : Bool := decide (params param.text ≠ Property.undefined)

/-- The test `0 <= value && value <= hi`. -/
def inRange (value : ParamValue) (hi : Int) : Bool :=
  match value.number with
  | none => false
  | some n => decide (0 ≤ n) && decide (n ≤ hi)

/-- The function `params.isValid(param, value)`; `none` when the call throws a `TypeError`
(`value.toString().test` is not a function).  The `switch` compares with `===`,
so a number matches no `case`. -/
def isValid (param : ParamRef) (value : ParamValue) : Option Bool :=
  match param with
  | ParamRef.number _ => some false
  | ParamRef.name s =>
    if s = u "SER_NUMBER" then none
    else if s = u "REF_BLANK" ∨ s = u "G2_BLANK" then some (inRange value 4095)
    else if s = u "LED_DRIVE" ∨ s = u "GAIN_REF" ∨ s = u "GAIN_G2" then some (inRange value 255)
    else some false

/-- The variable `param_id`: `param` itself when it is a number, `params[param]` otherwise. -/
def paramId : ParamRef → Property
  | ParamRef.name s => params s
  | ParamRef.number n => Property.num n

/-- String conversion of `param_id` in a concatenation; `fnText` is the source
text of the function `isValid`. -/
def Property.text (fnText : JSStr) : Property → JSStr
  | Property.num n => toString10 n
  | Property.func => fnText
  | Property.undefined => u "undefined"

/-- The command of `getParam`: `"GET," + param_id + "\r\n"`. -/
def getCommand (fnText : JSStr) (param : ParamRef) : JSStr :=
  u "GET," ++ (paramId param).text fnText ++ u "\r\n"

/-- The command of `setParam`: `'SET,' + param_id + ',' + value + '\r\n'`. -/
def setCommand (fnText : JSStr) (param : ParamRef) (value : ParamValue) : JSStr :=
  u "SET," ++ (paramId param).text fnText ++ u "," ++ value.text ++ u "\r\n"

/-- The promise executor of `getParam(param, closeAfter)`: its effects in program
order.  `data_call` and `data_call_no_close` start alike. -/
def getParam (fnText : JSStr) (param : ParamRef) : List Effect :=
  (if !hasOwnProperty param then
    [Effect.now (Act.reject (Value.text (u "Error: " ++ param.text ++ u "is not a parameter.")))]
   else []) ++
  data_call_start (getCommand fnText param)

/-- The promise executor of `setParam(param, value)`: its effects in program
order.  When `isValid` throws, the executor stops there and the promise is
rejected with the error. -/
def setParam (fnText : JSStr) (param : ParamRef) (value : ParamValue) : List Effect :=
  let e1 :=
    if !hasOwnProperty param then
      [Effect.now (Act.reject (Value.text (u "Error: " ++ param.text ++ u " is not a parameter.")))]
    else []
  match isValid param value with
  | none => e1 ++ [Effect.now (Act.reject Value.typeError)]
  | some valid =>
    e1 ++
    (if !valid then
      [Effect.now (Act.reject (Value.text
        (u "Error: " ++ value.text ++ u " is not valid for " ++ param.text ++ u ".")))]
     else []) ++
    data_call_start (setCommand fnText param value)

/-- The numeric value `n` as an argument of `setParam`. -/
def numberValue (n : Nat) : ParamValue := { text := toString10 n, number := some (Int.ofNat n) }

/-! ## Recurring scheduler (`src/tasking/AsyncInterval.js`)

A timer object holds the flag `stopped`, the counter `id`, the object `timeouts`
(key to timeout handle) and the object `promises` (keys of the invocations in
flight).  An object is the list of its entries in insertion order. -/

/-- The argument `interval`: a number, or a value of another type, of which the
code observes only the result of `interval <= 10`. -/
inductive IntervalArg
  | number (n : Int)
  | other (leTen : Bool)
  deriving DecidableEq, Repr

/-- A handle returned by `setTimeout(timeoutHandler, delay, ...)`; `cleared` once
`clearTimeout` was called on it. -/
structure Timeout where
  delay : IntervalArg
  cleared : Bool
  deriving DecidableEq, Repr

/-- The class `SetAsyncIntervalTimer`. -/
structure SetAsyncIntervalTimer where
  stopped : Bool
  id : Nat
  timeouts : List (Nat × Timeout)
  promises : List Nat
  deriving DecidableEq, Repr

/-- The assignment `obj[key] = value`. -/
def setKey {κ β : Type} [DecidableEq κ] (key : κ) (value : β) : List (κ × β) → List (κ × β)
  | [] => [(key, value)]
  | (k, v) :: rest => if k = key then (k, value) :: rest else (k, v) :: setKey key value rest

/-- The statement `delete obj[key]`. -/
def deleteKey {κ β : Type} [DecidableEq κ] (key : κ) : List (κ × β) → List (κ × β)
  | [] => []
  | (k, v) :: rest => if k = key then deleteKey key rest else (k, v) :: deleteKey key rest

/-- The value `obj[key]`. -/
def getKey {κ β : Type} [DecidableEq κ] (key : κ) : List (κ × β) → Option β
  | [] => none
  | (k, v) :: rest => if k = key then some v else getKey key rest

/-- The test `typeof interval !== 'number'`. -/
def IntervalArg.notNumber : IntervalArg → Bool
  | IntervalArg.number _ => false
  | IntervalArg.other _ => true

/-- The test `interval <= 10`. -/
def IntervalArg.leTen : IntervalArg → Bool
  | IntervalArg.number n => decide (n ≤ 10)
  | IntervalArg.other b => b

/-- The function `setAsyncInterval(handler, interval)`; `handlerIsFunction` is
`typeof handler === 'function'`.  An error is the message thrown. -/
def setAsyncInterval (handlerIsFunction : Bool) (interval : IntervalArg) :
    Except JSStr SetAsyncIntervalTimer :=
  if !handlerIsFunction then
    Except.error (u "Invalid argument: handler. Expected function")
  else if interval.notNumber && interval.leTen then
    Except.error (u "Invalid argument: interval. must be a number greater than 10ms")
  else
    Except.ok
      { stopped := false, id := 0,
        timeouts := setKey 0 { delay := interval, cleared := false } [],
        promises := [] }

/-- The delay computed by `timeoutHandler`:
`interval > executionTime ? interval - executionTime : 0`. -/
def nextTimeout (interval executionTime : Int) : Int :=
  if interval > executionTime then interval - executionTime else 0

/-- The synchronous part of `timeoutHandler`: the invocation is recorded in
`timer.promises[id]` and `timer.id` becomes `id + 1`.  Returns the `id` captured
by the invocation and the timer. -/
def timeoutHandler_start (timer : SetAsyncIntervalTimer) : Nat × SetAsyncIntervalTimer :=
  (timer.id, { timer with promises := timer.promises ++ [timer.id], id := timer.id + 1 })

/-- The end of the invocation started with `id`: the handler has returned or
thrown (`threw`; the error is caught and logged) after `executionTime` ms. -/
def timeoutHandler_finish (timer : SetAsyncIntervalTimer) (id : Nat) (interval : Int)
    (executionTime : Int) (_threw : Bool) : SetAsyncIntervalTimer :=
  let timer1 :=
    if !timer.stopped then
      { timer with
        timeouts := setKey (id + 1)
          { delay := IntervalArg.number (nextTimeout interval executionTime), cleared := false }
          timer.timeouts }
    else timer
  { timer1 with
    timeouts := deleteKey id timer1.timeouts,
    promises := timer1.promises.filter fun k => decide (k ≠ id) }

/-- An element of the array handed to `Promise.all`. -/
inductive Awaited
  | undefined
  | promise (id : Nat)
  deriving DecidableEq, Repr

/-- The function `clearAsyncInterval(timer)`: the timer after the synchronous
part, and the array `promises` handed to `Promise.all`.  The arrow function
given to `map` has a block body, `promise.catch(noop)` inside it and no
`return`, so it yields `undefined` for each promise. -/
def clearAsyncInterval (timer : SetAsyncIntervalTimer) : SetAsyncIntervalTimer × List Awaited :=
  ({ timer with
      stopped := true,
      timeouts := timer.timeouts.map fun e => (e.1, { e.2 with cleared := true }) },
    timer.promises.map fun _promise => Awaited.undefined)

/-- The timeouts of a timer that are still pending. -/
def pendingTimeouts (timer : SetAsyncIntervalTimer) : List (Nat × Timeout) :=
  timer.timeouts.filter fun e => !e.2.cleared

/-! ## Device list entries

The entries of the device list: the snapshots built by the registry
(`com`, `sn`, `fwVersion`, `connected`, `ledOn`), to which the device task adds
`id`, and the records of disconnected pods (`id`, `sn`, `name`).  A field that
the object does not have is `none`.  A serial number is a string. -/

/-- An entry of the device list. -/
structure Device where
  com : Option JSStr
  sn : JSStr
  fwVersion : Option JSStr
  connected : Option Bool
  ledOn : Option Bool
  id : Option Nat
  name : Option JSStr
  deriving DecidableEq, Repr

/-! ## Device list task (`src/tasking/devicesTask.js`, lines 44-68) -/

/-- A record of the database of saved pods. -/
structure SavedPod where
  id : Nat
  serialNumber : JSStr
  name : JSStr
  deriving DecidableEq, Repr

/-- The object pushed for a disconnected pod: `id`, `sn`, `name`, no `com`. -/
def disconnectedRecord (savedPod : SavedPod) : Device :=
  { com := none, sn := savedPod.serialNumber, fwVersion := none, connected := none,
    ledOn := none, id := some savedPod.id, name := some savedPod.name }

/-- The inner loop of `appendDisconnectedPods` over `devices[j]`, from the
current `j` on: the value of `found` when the loop ends or breaks. -/
def appendDisconnectedPods_inner (savedPod : SavedPod) : List Device → Bool
  | [] => false
  | d :: rest =>
    if savedPod.serialNumber = d.sn then true else appendDisconnectedPods_inner savedPod rest

/-- The outer loop of `appendDisconnectedPods` over `savedPods[i]`, from the
current `i` on; `found` is `false` when each pass starts. -/
def appendDisconnectedPods_outer : List SavedPod → List Device → List Device
  | [], devices => devices
  | savedPod :: rest, devices =>
    let found := appendDisconnectedPods_inner savedPod devices
    appendDisconnectedPods_outer rest
      (if !found then devices ++ [disconnectedRecord savedPod] else devices)

/-- The function `appendDisconnectedPods(devices, savedPods)`: the array `devices`
after the call. -/
def appendDisconnectedPods (devices : List Device) (savedPods : List SavedPod) : List Device :=
  if savedPods.length = 0 then devices else appendDisconnectedPods_outer savedPods devices

/-- Reference: the saved pods, in order, whose serial number is none of `seen`
and none of the serial numbers selected before. -/
def missingPods : List JSStr → List SavedPod → List SavedPod
  | _, [] => []
  | seen, p :: rest =>
    if p.serialNumber ∈ seen then missingPods seen rest
    else p :: missingPods (seen ++ [p.serialNumber]) rest

/-! ## Device registry (`src/device/DeviceManager.js`)

The per-endpoint exchanges and the enumeration are inputs of the model: what the
pod at an endpoint answers in a cycle is a `Probe`.  The per-endpoint tasks run
concurrently; each pushes its results in one synchronous step when it completes,
so a cycle is determined by the order in which the tasks complete. -/

/-- An entry of `SerialPort.list()`. -/
structure PortInfo where
  path : JSStr
  productId : Option JSStr
  vendorId : Option JSStr
  deriving DecidableEq, Repr

/-- The class `DeviceManager`: `cmdHandler` maps an endpoint to its queue (a
queue is identified by the number of queues created before it), `devices` is the
known-devices index, `trakpods` the property assigned by `_getDeviceInfo`
(`none` while undefined). -/
structure DeviceManager where
  cmdHandler : List (JSStr × Nat)
  devices : List (JSStr × JSStr)
  trakpods : Option (List (JSStr × JSStr))
  created : Nat
  deriving DecidableEq, Repr

/-- The constructor: `cmdHandler = {}`, `devices = {}`. -/
def DeviceManager.new : DeviceManager :=
  { cmdHandler := [], devices := [], trakpods := none, created := 0 }

/-- The test `obj.hasOwnProperty(key)`. -/
def hasOwn {β : Type} (key : JSStr) (obj : List (JSStr × β)) : Bool :=
  obj.any fun e => decide (e.1 = key)

/-- The test `port.productId === '5740' && port.vendorId === '0483'`. -/
def isRecognized (port : PortInfo) : Bool :=
  decide (port.productId = some (u "5740")) && decide (port.vendorId = some (u "0483"))

/-- The `forEach` of `_getPorts` over the enumeration results: the array `ports`
and the manager. -/
def _getPorts_forEach : List PortInfo → List JSStr × DeviceManager → List JSStr × DeviceManager
  | [], acc => acc
  | port :: rest, (ports, m) =>
    if isRecognized port then
      _getPorts_forEach rest
        (ports ++ [port.path],
          if !hasOwn port.path m.cmdHandler then
            { m with cmdHandler := m.cmdHandler ++ [(port.path, m.created)],
                     created := m.created + 1 }
          else m)
    else _getPorts_forEach rest (ports, m)

/-- The method `_getPorts()` on the results of `SerialPort.list()`. -/
def _getPorts (m : DeviceManager) (results : List PortInfo) : List JSStr × DeviceManager :=
  _getPorts_forEach results ([], m)

/-- Step 1 of `getDevices`: `delete this.cmdHandler[port]` for every key that
`ports` does not include. -/
def cleanQueues (ports : List JSStr) (m : DeviceManager) : DeviceManager :=
  { m with cmdHandler := m.cmdHandler.filter fun e => decide (e.1 ∈ ports) }

/-- What the pod at an endpoint does in a cycle: the results of `getSn(false)` and
`getFWVersion(false)` (`none` when the promise is rejected), whether
`pod.close()` succeeds, and the result of `device.runRP()` (`none` when the
object has no such method). -/
structure Probe where
  sn : Option JSStr
  fwVersion : Option JSStr
  closeOk : Bool
  runRP : Option Bool
  deriving DecidableEq, Repr

/-- The arrays and the map filled by the tasks of `_getDeviceInfo`. -/
structure Discovery where
  pods : List Device
  device_map : List (JSStr × JSStr)
  reconnected_pods : List (JSStr × JSStr)
  deriving DecidableEq, Repr

/-- The task queued for one endpoint by `_getDeviceInfo`, at its completion.  An
error of an exchange is caught and logged; `info` is pushed when
`info.connected` was set.  For a known serial number `pod.close()` is awaited
(its error is caught as well); otherwise the pod is pushed to
`reconnected_pods` as the pair (endpoint, serial number). -/
def _getDeviceInfo_task (known : List (JSStr × JSStr)) (probe : JSStr → Probe) (acc : Discovery)
    (port : JSStr) : Discovery :=
  match (probe port).sn with
  | none => acc
  | some sn =>
    let acc1 := { acc with device_map := setKey sn port acc.device_map }
    match (probe port).fwVersion with
    | none => acc1
    | some fw =>
      let info : Device :=
        { com := some port, sn := sn, fwVersion := some fw, connected := some true,
          ledOn := some false, id := none, name := none }
      if hasOwn sn known then { acc1 with pods := acc1.pods ++ [info] }
      else
        { acc1 with pods := acc1.pods ++ [info],
                    reconnected_pods := acc1.reconnected_pods ++ [(port, sn)] }

/-- The method `_podReconnection(device)`: whether it completes without throwing.
`activeTest` is the global of that name (`none` when it is not declared, which
makes the test throw). -/
def _podReconnection (activeTest : Option Bool) (pr : Probe) : Bool :=
  match activeTest with
  | none => false
  | some true => pr.closeOk
  | some false =>
    match pr.runRP with
    | none => false
    | some ok => ok

/-- The discovery pass of `_getDeviceInfo(ports)`: the tasks in the order
`completion` in which they complete. -/
def discover (m : DeviceManager) (probe : JSStr → Probe) (completion : List JSStr) : Discovery :=
  completion.foldl (_getDeviceInfo_task m.devices probe)
    { pods := [], device_map := [], reconnected_pods := [] }

/-- The method `_getDeviceInfo(ports)`: the array `pods`, or `none` when a
`_podReconnection` throws, and the manager after `this.trakpods = device_map`. -/
def _getDeviceInfo (m : DeviceManager) (probe : JSStr → Probe) (activeTest : Option Bool)
    (completion : List JSStr) : Option (List Device) × DeviceManager :=
  let d := discover m probe completion
  let m1 := { m with trakpods := some d.device_map }
  if d.reconnected_pods.all fun r => _podReconnection activeTest (probe r.1) then
    (some d.pods, m1)
  else (none, m1)

/-- The comparison `a < b` of two strings: lexicographic on code units. -/
def strLt : JSStr → JSStr → Bool
  | [], [] => false
  | [], _ :: _ => true
  | _ :: _, [] => false
  | a :: as, b :: bs => if a < b then true else if b < a then false else strLt as bs

/-- The comparator given to `pods.sort`:
`(sn1 < sn2) ? -1 : (sn1 > sn2) ? 1 : 0`. -/
def compareSn (a b : Device) : Int :=
  if strLt a.sn b.sn then -1 else if strLt b.sn a.sn then 1 else 0

/-- The call `pods.sort(compare)`: a stable sort by the comparator. -/
def sortPods (pods : List Device) : List Device :=
  pods.insertionSort fun a b => compareSn a b ≤ 0

/-- What `getDevices` returns: the sorted array, or the value `Error(err)`. -/
inductive CycleResult
  | error
  | pods (l : List Device)
  deriving DecidableEq, Repr

/-- The method `getDevices()`.  `enumeration` is the result of `SerialPort.list()`
(`none` when it rejects) and `order` gives, for the array `ports`, the order in
which the tasks complete. -/
def getDevices (m : DeviceManager) (enumeration : Option (List PortInfo))
    (probe : JSStr → Probe) (activeTest : Option Bool) (order : List JSStr → List JSStr) :
    CycleResult × DeviceManager :=
  match enumeration with
  | none => (CycleResult.error, m)
  | some results =>
    let ports := (_getPorts m results).1
    let m1 := cleanQueues ports (_getPorts m results).2
    match _getDeviceInfo m1 probe activeTest (order ports) with
    | (none, m2) => (CycleResult.error, m2)
    | (some pods, m2) => (CycleResult.pods (sortPods pods), m2)

/-- An enumeration entry with the recognized identifiers. -/
def recognizedPort (path : JSStr) : PortInfo :=
  { path := path, productId := some (u "5740"), vendorId := some (u "0483") }

/-- A pod that answers both exchanges, with the given results of `close()` and
`runRP()`. -/
def reachablePod (sn fw : JSStr) (closeOk : Bool) (runRP : Option Bool) : Probe :=
  { sn := some sn, fwVersion := some fw, closeOk := closeOk, runRP := runRP }

/-- The snapshot of a reachable pod. -/
def liveEntry (com sn fw : JSStr) : Device :=
  { com := some com, sn := sn, fwVersion := some fw, connected := some true,
    ledOn := some false, id := none, name := none }

/-! ## Theorems: checksum codec -/

theorem shl32_lt (x n : Nat) : shl32 x n < 2 ^ 32 := Nat.mod_lt _ (by norm_num)

theorem crcLoopBody_snd_lt (st : Nat × Nat) : (crcLoopBody st).2 < 65536 := by
  have h : ∀ x : Nat, 0xFFFF &&& x < 65536 := fun x =>
    lt_of_le_of_lt Nat.and_le_left (by norm_num)
  unfold crcLoopBody
  dsimp only
  split
  · exact h _
  · exact h _

theorem crcLoop_snd_lt (n : Nat) (st : Nat × Nat) (h : st.2 < 65536) :
    (crcLoop n st).2 < 65536 := by
  induction n generalizing st with
  | zero => simpa [crcLoop] using h
  | succ n ih => exact ih _ (crcLoopBody_snd_lt st)

theorem ComputeCRC16MSB_lt (b crc : Nat) : ComputeCRC16MSB b crc < 65536 := by
  unfold ComputeCRC16MSB
  show (crcLoop 7 (crcLoopBody (shl32 b 8, crc))).2 < 65536
  exact crcLoop_snd_lt 7 _ (crcLoopBody_snd_lt _)

theorem generateChecksumLoop_lt (buffer : List Nat) (acc : Nat) (h : acc < 65536) :
    generateChecksumLoop buffer acc < 65536 := by
  induction buffer generalizing acc with
  | nil => simpa [generateChecksumLoop] using h
  | cons b rest ih => exact ih _ (ComputeCRC16MSB_lt b acc)

theorem crcRegister_lt (msg : JSStr) : crcRegister msg < 65536 :=
  generateChecksumLoop_lt _ 0 (by norm_num)

/-- The `k` base-16 digits of `n`, most significant first. -/
theorem toString16Core_spec (fuel : Nat) :
    ∀ (n k : Nat) (acc : JSStr), n < fuel → n < 16 ^ k → 1 ≤ k →
      ∃ ds : JSStr, toString16Core fuel n acc = ds ++ acc ∧ 1 ≤ ds.length ∧ ds.length ≤ k ∧
        List.replicate (k - ds.length) 48 ++ ds =
          (List.range k).reverse.map (fun i => hexDigit (n / 16 ^ i % 16)) := by
  induction fuel with
  | zero => intro n k acc h; omega
  | succ fuel ih =>
    intro n k acc hn hk hk0
    obtain ⟨k, rfl⟩ : ∃ j, k = j + 1 := ⟨k - 1, by omega⟩
    by_cases h0 : n / 16 = 0
    · refine ⟨[hexDigit (n % 16)], by simp [toString16Core, h0], by simp, by simp, ?_⟩
      have hlt : n < 16 := by omega
      simp only [List.length_singleton, Nat.add_sub_cancel, List.range_succ_eq_map,
        List.reverse_cons, List.map_append, List.map_reverse, List.map_map, List.map_cons,
        List.map_nil, pow_zero, Nat.div_one]
      congr 1
      symm
      rw [List.eq_replicate_iff]
      refine ⟨by simp, ?_⟩
      intro b hb
      simp only [List.mem_reverse, List.mem_map, List.mem_range, Function.comp] at hb
      obtain ⟨i, _, rfl⟩ := hb
      have : n / 16 ^ (i + 1) = 0 := by
        apply Nat.div_eq_of_lt
        calc n < 16 := hlt
          _ = 16 ^ 1 := by norm_num
          _ ≤ 16 ^ (i + 1) := Nat.pow_le_pow_right (by norm_num) (by omega)
      simp [this, hexDigit]
    · have h16 : 16 ≤ n := by omega
      have hk1 : n / 16 < 16 ^ k := by
        rw [Nat.div_lt_iff_lt_mul (by norm_num)]
        simpa [pow_succ] using hk
      have hk2 : 1 ≤ k := by
        rcases Nat.eq_zero_or_pos k with rfl | hpos
        · simp at hk; omega
        · exact hpos
      obtain ⟨ds, hds, hl1, hl2, hrep⟩ :=
        ih (n / 16) k (hexDigit (n % 16) :: acc) (by omega) hk1 hk2
      refine ⟨ds ++ [hexDigit (n % 16)], by simp [toString16Core, h0, hds], by simp,
        by simp; omega, ?_⟩
      have e : k + 1 - (ds ++ [hexDigit (n % 16)]).length = k - ds.length := by simp
      rw [e, ← List.append_assoc, hrep]
      simp only [List.range_succ_eq_map, List.reverse_cons, List.map_append, List.map_reverse,
        List.map_map, List.map_cons, List.map_nil, pow_zero, Nat.div_one]
      congr 2
      apply List.map_congr_left
      intro i _
      simp [Function.comp, pow_succ, Nat.div_div_eq_div_mul, Nat.mul_comm]

theorem toUpperCase_hexDigit (d : Nat) (h : d < 16) :
    (if 97 ≤ hexDigit d ∧ hexDigit d ≤ 122 then hexDigit d - 32 else hexDigit d) =
      hexDigitUpper d := by
  unfold hexDigit hexDigitUpper
  split <;> split <;> omega

theorem generateChecksum_eq_hex4 (msg : JSStr) : generateChecksum msg = hex4 (crcRegister msg) := by
  have hlt := crcRegister_lt msg
  obtain ⟨ds, hds, hl1, hl2, hrep⟩ :=
    toString16Core_spec (crcRegister msg + 1) (crcRegister msg) 4 [] (by omega) (by norm_num; omega) (by norm_num)
  unfold generateChecksum toString16
  simp only [hds, List.append_nil, padStart, toUpperCase, List.length_map]
  have h48 : List.replicate (4 - ds.length) 48 =
      (List.replicate (4 - ds.length) 48).map
        (fun c => if 97 ≤ c ∧ c ≤ 122 then c - 32 else c) := by
    simp
  rw [h48, ← List.map_append, hrep]
  simp only [hex4, List.range_succ, List.range_zero, List.nil_append, List.reverse_append,
    List.reverse_cons, List.reverse_nil, List.singleton_append, List.map_cons, List.map_nil]
  have e3 : crcRegister msg / 16 ^ 3 % 16 = crcRegister msg / 4096 % 16 := by norm_num
  have e2 : crcRegister msg / 16 ^ 2 % 16 = crcRegister msg / 256 % 16 := by norm_num
  have e1 : crcRegister msg / 16 ^ 1 % 16 = crcRegister msg / 16 % 16 := by norm_num
  have e0 : crcRegister msg / 16 ^ 0 % 16 = crcRegister msg % 16 := by norm_num
  rw [e3, e2, e1, e0]
  simp only [toUpperCase_hexDigit _ (Nat.mod_lt _ (by norm_num : 0 < 16))]

theorem hexDigitUpper_isUpperHex (d : Nat) (h : d < 16) : isUpperHex (hexDigitUpper d) := by
  unfold isUpperHex hexDigitUpper
  split <;> omega

theorem xor_two_pow_ne (c k : Nat) : c ^^^ 2 ^ k ≠ c := by
  intro h
  have := congrArg (fun x => x.testBit k) h
  simp [Nat.testBit_xor, Nat.testBit_two_pow_self] at this

theorem flipBit_ne (s : JSStr) (i k : Nat) (h : i < s.length) : flipBit s i k ≠ s := by
  intro e
  have h1 := congrArg (fun l : JSStr => l[i]?) e
  simp only [flipBit, List.getElem?_modify_eq, List.getElem?_eq_getElem h, Option.map_eq_map,
    Option.map_some', Option.some.injEq] at h1
  exact xor_two_pow_ne _ _ h1

/-- C1: `validate_checksum(p, c)` holds exactly when `c` is the string
`generateChecksum(p)`; it holds of `generateChecksum(p)` itself; and flipping any
one bit of any character of a checksum that validates gives a string that does
not validate. -/
theorem validate_checksum_iff (p c : JSStr) :
    (validate_checksum p c = true ↔ c = generateChecksum p) ∧
      validate_checksum p (generateChecksum p) = true ∧
      ∀ i k : Nat, validate_checksum p c = true → i < c.length →
        validate_checksum p (flipBit c i k) = false := by
  refine ⟨?_, ?_, ?_⟩
  · simp only [validate_checksum, decide_eq_true_eq]
    exact eq_comm
  · simp [validate_checksum]
  · intro i k hv hi
    simp only [validate_checksum, decide_eq_true_eq] at hv
    simp only [validate_checksum, decide_eq_false_iff_not]
    intro e
    exact flipBit_ne c i k hi (e.symm.trans hv)

/-- C2: for every payload, `generateChecksum` returns exactly four characters,
each one of `0-9`, `A-F`; they are the upper-case hexadecimal digits of the final
register, zero-padded on the left; and the register is at most `0xFFFF` after
every character, whatever the character code and the register before. -/
theorem generateChecksum_four_hex_digits :
    (∀ msg : JSStr, (generateChecksum msg).length = 4 ∧
      (∀ c ∈ generateChecksum msg, isUpperHex c) ∧
      generateChecksum msg = hex4 (crcRegister msg) ∧
      generateChecksum msg = padStart (toUpperCase (toString16 (crcRegister msg))) 4 48 ∧
      crcRegister msg ≤ 0xFFFF) ∧
    (∀ b crc : Nat, ComputeCRC16MSB b crc ≤ 0xFFFF) ∧
    (∀ buffer : List Nat, generateChecksumLoop buffer 0 ≤ 0xFFFF) := by
  refine ⟨fun msg => ⟨?_, ?_, generateChecksum_eq_hex4 msg, rfl, ?_⟩, ?_, ?_⟩
  · rw [generateChecksum_eq_hex4]; rfl
  · rw [generateChecksum_eq_hex4]
    intro c hc
    simp only [hex4, List.mem_cons, List.mem_singleton, List.not_mem_nil, or_false] at hc
    rcases hc with rfl | rfl | rfl | rfl <;>
      exact hexDigitUpper_isUpperHex _ (Nat.mod_lt _ (by norm_num))
  · exact Nat.le_of_lt_succ (crcRegister_lt msg)
  · exact fun b crc => Nat.le_of_lt_succ (ComputeCRC16MSB_lt b crc)
  · exact fun buffer => Nat.le_of_lt_succ (generateChecksumLoop_lt buffer 0 (by norm_num))

set_option maxRecDepth 100000 in
/-- Flipping bit 0 of the first character of the checksum of `!ACK`. -/
theorem validate_checksum_iff_witness :
    validate_checksum (u "!ACK") (flipBit (generateChecksum (u "!ACK")) 0 0) = false :=
  (validate_checksum_iff (u "!ACK") (generateChecksum (u "!ACK"))).2.2 0 0 (by decide) (by decide)

/-! ### The register update is polynomial division -/

theorem and_0x8000_ne_zero (y : Nat) : (y &&& 0x8000 ≠ 0) ↔ y.testBit 15 = true := by
  have e : (0x8000 : Nat) = 2 ^ 15 := by norm_num
  rw [e]
  constructor
  · intro h
    by_contra hb
    apply h
    apply Nat.eq_of_testBit_eq
    intro i
    simp only [Nat.testBit_and, Nat.testBit_two_pow, Nat.zero_testBit]
    by_cases hi : 15 = i
    · subst hi; simpa using hb
    · simp [hi]
  · intro h e0
    have := congrArg (fun x => x.testBit 15) e0
    simp only [Nat.testBit_and, Nat.testBit_two_pow_self, h, Nat.zero_testBit] at this
    exact absurd this (by decide)

theorem testBit_0x18005 (j : Nat) : (0x18005 : Nat).testBit j =
    (decide (j = 16) || decide (j = 15) || decide (j = 2) || decide (j = 0)) := by
  have e : (0x18005 : Nat) = 2 ^ 16 ^^^ 2 ^ 15 ^^^ 2 ^ 2 ^^^ 2 ^ 0 := by decide
  rw [e]
  simp only [Nat.testBit_xor, Nat.testBit_two_pow]
  by_cases h16 : j = 16
  · subst h16; decide
  by_cases h15 : j = 15
  · subst h15; decide
  by_cases h2 : j = 2
  · subst h2; decide
  by_cases h0 : j = 0
  · subst h0; decide
  simp [h16, h15, h2, h0, Ne.symm h16, Ne.symm h15, Ne.symm h2, Ne.symm h0]

theorem testBit_0x8005 (j : Nat) : (0x8005 : Nat).testBit j =
    (decide (j = 15) || decide (j = 2) || decide (j = 0)) := by
  have e : (0x8005 : Nat) = 2 ^ 15 ^^^ 2 ^ 2 ^^^ 2 ^ 0 := by decide
  rw [e]
  simp only [Nat.testBit_xor, Nat.testBit_two_pow]
  by_cases h15 : j = 15
  · subst h15; decide
  by_cases h2 : j = 2
  · subst h2; decide
  by_cases h0 : j = 0
  · subst h0; decide
  simp [h15, h2, h0, Ne.symm h15, Ne.symm h2, Ne.symm h0]

theorem testBit_0xFFFF (j : Nat) : (0xFFFF : Nat).testBit j = decide (j < 16) := by
  have e : (0xFFFF : Nat) = 2 ^ 16 - 1 := by decide
  rw [e, Nat.testBit_two_pow_sub_one]

theorem testBit_of_lt_65536 (crc k : Nat) (hc : crc < 2 ^ 16) (hk : 16 ≤ k) :
    crc.testBit k = false :=
  Nat.testBit_lt_two_pow (lt_of_lt_of_le hc (Nat.pow_le_pow_right (by norm_num) hk))

/-- One division step when the leading coefficient is set. -/
theorem division_step_set (n b crc : Nat) (hc : crc < 2 ^ 16)
    (hf : (crc.testBit 15 != b.testBit n) = true) :
    ((crc <<< (n + 1)) ^^^ ((b % 2 ^ (n + 1)) <<< 16)) ^^^ (0x18005 <<< n) =
      ((0xFFFF &&& (shl32 crc 1 ^^^ 0x8005)) <<< n) ^^^ ((b % 2 ^ n) <<< 16) := by
  apply Nat.eq_of_testBit_eq
  intro i
  simp only [Nat.testBit_xor, Nat.testBit_shiftLeft, Nat.testBit_mod_two_pow, Nat.testBit_and,
    shl32, testBit_0x18005, testBit_0x8005, testBit_0xFFFF]
  rcases Nat.lt_or_ge i n with hlt | hge
  · have h1 : ¬ (i ≥ n + 1) := by omega
    have h3 : ¬ (i ≥ n) := by omega
    have h4 : ¬ (i - 16 < n + 1 ∧ i ≥ 16 ∧ i - 16 ≥ n) := by omega
    by_cases h16 : i ≥ 16
    · have h5 : i - 16 < n + 1 ↔ i - 16 < n := by omega
      simp [h1, h3, h5]
    · simp [h1, h3, h16]
  · obtain ⟨j, rfl⟩ : ∃ j, i = n + j := ⟨i - n, by omega⟩
    have e1 : n + j - n = j := by omega
    simp only [e1]
    rcases Nat.lt_trichotomy j 16 with hj | hj | hj
    · have h1 : n + j - (n + 1) = j - 1 := by omega
      have h3 : (n + j ≥ n + 1) ↔ (j ≥ 1) := by omega
      have h4 : j < 32 := by omega
      have h5 : j ≠ 16 := by omega
      by_cases h16 : 16 ≤ n + j
      · have h2 : (n + j - 16 < n + 1) ↔ (n + j - 16 < n) := by omega
        simp only [h1, h2, h3, h4, h5, hj, h16, hge, ge_iff_le, decide_True, decide_False,
          Bool.true_and, Bool.or_false, Bool.false_or]
        cases (decide (1 ≤ j) && crc.testBit (j - 1)) <;>
          cases (decide (n + j - 16 < n) && b.testBit (n + j - 16)) <;>
          cases (decide (j = 15) || decide (j = 2) || decide (j = 0)) <;> rfl
      · simp [h1, h3, h4, h5, hj, h16]
    · subst hj
      have h1 : n + 16 - (n + 1) = 15 := by omega
      have h2 : n + 16 - 16 = n := by omega
      simp only [h1, h2]
      revert hf
      cases crc.testBit 15 <;> cases b.testBit n <;> simp
    · have h1 : n + j - (n + 1) = j - 1 := by omega
      have h2 : ¬ (n + j - 16 < n + 1) := by omega
      have h3 : ¬ (n + j - 16 < n) := by omega
      have h4 : ¬ (j < 16) := by omega
      have h5 : j ≠ 16 := by omega
      have h6 : j ≠ 15 := by omega
      have h7 : j ≠ 2 := by omega
      have h8 : j ≠ 0 := by omega
      simp [h1, h2, h3, h4, h5, h6, h7, h8, testBit_of_lt_65536 crc (j - 1) hc (by omega)]

/-- One division step when the leading coefficient is clear. -/
theorem division_step_clear (n b crc : Nat) (hc : crc < 2 ^ 16)
    (hf : (crc.testBit 15 != b.testBit n) = false) :
    (crc <<< (n + 1)) ^^^ ((b % 2 ^ (n + 1)) <<< 16) =
      ((0xFFFF &&& shl32 crc 1) <<< n) ^^^ ((b % 2 ^ n) <<< 16) := by
  apply Nat.eq_of_testBit_eq
  intro i
  simp only [Nat.testBit_xor, Nat.testBit_shiftLeft, Nat.testBit_mod_two_pow, Nat.testBit_and,
    shl32, testBit_0xFFFF]
  rcases Nat.lt_or_ge i n with hlt | hge
  · have h1 : ¬ (i ≥ n + 1) := by omega
    have h3 : ¬ (i ≥ n) := by omega
    by_cases h16 : i ≥ 16
    · have h5 : i - 16 < n + 1 ↔ i - 16 < n := by omega
      simp [h1, h3, h5]
    · simp [h1, h3, h16]
  · obtain ⟨j, rfl⟩ : ∃ j, i = n + j := ⟨i - n, by omega⟩
    have e1 : n + j - n = j := by omega
    simp only [e1]
    rcases Nat.lt_trichotomy j 16 with hj | hj | hj
    · have h1 : n + j - (n + 1) = j - 1 := by omega
      have h3 : (n + j ≥ n + 1) ↔ (j ≥ 1) := by omega
      have h4 : j < 32 := by omega
      by_cases h16 : 16 ≤ n + j
      · have h2 : (n + j - 16 < n + 1) ↔ (n + j - 16 < n) := by omega
        simp [h1, h2, h3, h4, hj, h16]
      · simp [h1, h3, h4, hj, h16]
    · subst hj
      have h1 : n + 16 - (n + 1) = 15 := by omega
      have h2 : n + 16 - 16 = n := by omega
      simp only [h1, h2]
      revert hf
      cases crc.testBit 15 <;> cases b.testBit n <;> simp
    · have h1 : n + j - (n + 1) = j - 1 := by omega
      have h2 : ¬ (n + j - 16 < n + 1) := by omega
      have h3 : ¬ (n + j - 16 < n) := by omega
      have h4 : ¬ (j < 16) := by omega
      simp [h1, h2, h3, h4, testBit_of_lt_65536 crc (j - 1) hc (by omega)]

theorem shl32_shl32_one (b m : Nat) : shl32 (shl32 b m) 1 = shl32 b (m + 1) := by
  unfold shl32
  rw [Nat.shiftLeft_eq, Nat.shiftLeft_eq, Nat.shiftLeft_eq, Nat.mod_mul_mod, Nat.mul_assoc,
    ← Nat.pow_add]

theorem testBit_shl32_15 (b n : Nat) (hn : n ≤ 15) : (shl32 b (15 - n)).testBit 15 = b.testBit n := by
  have e : 15 - (15 - n) = n := by omega
  unfold shl32
  rw [Nat.testBit_mod_two_pow, Nat.testBit_shiftLeft, e]
  simp

theorem testBit_dividend_top (n b crc : Nat) :
    ((crc <<< (n + 1)) ^^^ ((b % 2 ^ (n + 1)) <<< 16)).testBit (16 + n) =
      (crc.testBit 15 != b.testBit n) := by
  have e1 : 16 + n - (n + 1) = 15 := by omega
  have e2 : 16 + n - 16 = n := by omega
  have e3 : 16 + n ≥ n + 1 := by omega
  simp [Nat.testBit_xor, Nat.testBit_shiftLeft, Nat.testBit_mod_two_pow, e1, e2, e3]

/-- The loop of `ComputeCRC16MSB` with `n` passes left is the long division with
`n` steps left. -/
theorem crcLoop_eq_gf2ModAux (n : Nat) : ∀ b crc : Nat, crc < 2 ^ 16 → n ≤ 16 →
    (crcLoop n (shl32 b (16 - n), crc)).2 =
      gf2ModAux 0x18005 16 n ((crc <<< n) ^^^ ((b % 2 ^ n) <<< 16)) := by
  induction n with
  | zero =>
    intro b crc _ _
    simp [crcLoop, gf2ModAux, Nat.mod_one]
  | succ n ih =>
    intro b crc hc hn
    have hn15 : n ≤ 15 := by omega
    have e16 : 16 - (n + 1) = 15 - n := by omega
    have e16' : 15 - n + 1 = 16 - n := by omega
    rw [e16]
    simp only [crcLoop, gf2ModAux, crcLoopBody, shl32_shl32_one, e16', testBit_dividend_top]
    by_cases hf : (crc.testBit 15 != b.testBit n) = true
    · have hcond : (shl32 b (15 - n) ^^^ crc) &&& 0x8000 ≠ 0 := by
        rw [and_0x8000_ne_zero, Nat.testBit_xor, testBit_shl32_15 b n hn15]
        revert hf
        cases crc.testBit 15 <;> cases b.testBit n <;> simp
      rw [if_pos hcond, if_pos hf, division_step_set n b crc hc hf]
      exact ih b _ (lt_of_le_of_lt Nat.and_le_left (by norm_num)) (by omega)
    · have hf' : (crc.testBit 15 != b.testBit n) = false := by simpa using hf
      have hcond : ¬ ((shl32 b (15 - n) ^^^ crc) &&& 0x8000 ≠ 0) := by
        rw [and_0x8000_ne_zero, Nat.testBit_xor, testBit_shl32_15 b n hn15]
        revert hf'
        cases crc.testBit 15 <;> cases b.testBit n <;> simp
      rw [if_neg hcond, if_neg hf, division_step_clear n b crc hc hf']
      exact ih b _ (lt_of_le_of_lt Nat.and_le_left (by norm_num)) (by omega)

theorem ComputeCRC16MSB_eq_gf2ModAux (b crc : Nat) (hb : b ≤ 255) (hc : crc ≤ 0xFFFF) :
    ComputeCRC16MSB b crc = gf2ModAux 0x18005 16 8 ((crc <<< 8) ^^^ (b <<< 16)) := by
  have h := crcLoop_eq_gf2ModAux 8 b crc (by norm_num; omega) (by norm_num)
  have e : b % 2 ^ 8 = b := Nat.mod_eq_of_lt (by norm_num; omega)
  rw [e] at h
  exact h

/-! ### Degrees, remainders and quotients -/

theorem lt_two_pow_bitLengthAux (fuel : Nat) : ∀ a : Nat, a ≤ fuel → a < 2 ^ bitLengthAux fuel a := by
  induction fuel with
  | zero => intro a h; simp [bitLengthAux]; omega
  | succ fuel ih =>
    intro a h
    by_cases h0 : a = 0
    · simp [bitLengthAux, h0]
    · simp only [bitLengthAux, h0, if_false, Nat.pow_succ]
      have := ih (a / 2) (by omega)
      omega

theorem bitLengthAux_le (fuel : Nat) : ∀ a k : Nat, a < 2 ^ k → bitLengthAux fuel a ≤ k := by
  induction fuel with
  | zero => intro a k _; simp [bitLengthAux]
  | succ fuel ih =>
    intro a k h
    by_cases h0 : a = 0
    · simp [bitLengthAux, h0]
    · simp only [bitLengthAux, h0, if_false]
      obtain ⟨k, rfl⟩ : ∃ j, k = j + 1 := by
        cases k with
        | zero => simp at h; exact absurd h h0
        | succ j => exact ⟨j, rfl⟩
      have := ih (a / 2) k (by rw [Nat.pow_succ] at h; omega)
      omega

theorem lt_two_pow_bitLength (a : Nat) : a < 2 ^ bitLength a :=
  lt_two_pow_bitLengthAux a a (Nat.le_refl a)

theorem bitLength_le (a k : Nat) (h : a < 2 ^ k) : bitLength a ≤ k := bitLengthAux_le a a k h

/-- Division steps above the degree of the dividend do nothing. -/
theorem gf2ModAux_of_lt (g d : Nat) (n : Nat) : ∀ m a : Nat, m ≤ n → a < 2 ^ (d + m) →
    gf2ModAux g d n a = gf2ModAux g d m a := by
  induction n with
  | zero => intro m a hm _; obtain rfl : m = 0 := by omega
            rfl
  | succ n ih =>
    intro m a hm ha
    rcases Nat.eq_or_lt_of_le hm with rfl | hlt
    · rfl
    · have hbit : a.testBit (d + n) = false :=
        Nat.testBit_lt_two_pow (lt_of_lt_of_le ha (Nat.pow_le_pow_right (by norm_num) (by omega)))
      simp only [gf2ModAux, hbit, Bool.false_eq_true, if_false]
      exact ih m a (by omega) ha

theorem gf2DivAux_lt (g d : Nat) (n : Nat) : ∀ a : Nat, gf2DivAux g d n a < 2 ^ n := by
  induction n with
  | zero => intro a; simp [gf2DivAux]
  | succ n ih =>
    intro a
    simp only [gf2DivAux]
    split
    · have := ih (a ^^^ (g <<< n))
      rw [Nat.pow_succ]; omega
    · have := ih a
      rw [Nat.pow_succ]; omega

theorem gf2MulAux_congr (g : Nat) (n : Nat) : ∀ q r : Nat,
    (∀ j, j < n → q.testBit j = r.testBit j) → gf2MulAux g n q = gf2MulAux g n r := by
  induction n with
  | zero => intro q r _; rfl
  | succ n ih =>
    intro q r h
    simp only [gf2MulAux, h n (Nat.lt_succ_self n)]
    rw [ih q r (fun j hj => h j (Nat.lt_succ_of_lt hj))]

theorem gf2MulAux_of_lt (g : Nat) (n : Nat) : ∀ m q : Nat, m ≤ n → q < 2 ^ m →
    gf2MulAux g n q = gf2MulAux g m q := by
  induction n with
  | zero => intro m q hm _; obtain rfl : m = 0 := by omega
            rfl
  | succ n ih =>
    intro m q hm hq
    rcases Nat.eq_or_lt_of_le hm with rfl | hlt
    · rfl
    · have hbit : q.testBit n = false :=
        Nat.testBit_lt_two_pow (lt_of_lt_of_le hq (Nat.pow_le_pow_right (by norm_num) (by omega)))
      simp only [gf2MulAux, hbit, Bool.false_eq_true, if_false, Nat.zero_xor]
      exact ih m q (by omega) hq

/-- Long division: dividend = quotient * divisor + remainder. -/
theorem gf2_division (g d : Nat) (n : Nat) : ∀ a : Nat,
    a = gf2MulAux g n (gf2DivAux g d n a) ^^^ gf2ModAux g d n a := by
  induction n with
  | zero => intro a; simp [gf2MulAux, gf2ModAux]
  | succ n ih =>
    intro a
    by_cases hbit : a.testBit (d + n) = true
    · have hq := gf2DivAux_lt g d n (a ^^^ (g <<< n))
      have htop : (2 ^ n + gf2DivAux g d n (a ^^^ (g <<< n))).testBit n = true := by
        rw [Nat.testBit_two_pow_add_eq, Nat.testBit_lt_two_pow hq]; rfl
      have hlow : gf2MulAux g n (2 ^ n + gf2DivAux g d n (a ^^^ (g <<< n))) =
          gf2MulAux g n (gf2DivAux g d n (a ^^^ (g <<< n))) :=
        gf2MulAux_congr g n _ _ (fun j hj => Nat.testBit_two_pow_add_gt hj _)
      simp only [gf2DivAux, gf2ModAux, gf2MulAux, hbit, if_true, htop, hlow]
      rw [Nat.xor_assoc, ← ih (a ^^^ (g <<< n)), Nat.xor_comm a, ← Nat.xor_assoc, Nat.xor_self,
        Nat.zero_xor]
    · have hbit' : a.testBit (d + n) = false := by simpa using hbit
      have hq := gf2DivAux_lt g d n a
      simp only [gf2DivAux, gf2ModAux, gf2MulAux, hbit', Bool.false_eq_true, if_false,
        Nat.testBit_lt_two_pow hq, Nat.zero_xor]
      exact ih a

theorem bitLength_crcGenerator : bitLength crcGenerator = 17 := by decide

theorem crcGenerator_eq : crcGenerator = 0x18005 := by decide

theorem dividend_lt (b crc : Nat) (hb : b ≤ 255) (hc : crc ≤ 0xFFFF) :
    (crc <<< 8) ^^^ (b <<< 16) < 2 ^ 24 := by
  apply Nat.xor_lt_two_pow
  · rw [Nat.shiftLeft_eq]; norm_num; omega
  · rw [Nat.shiftLeft_eq]; norm_num; omega

theorem gf2Mod_crcGenerator (a : Nat) (ha : a < 2 ^ 24) :
    gf2Mod a crcGenerator = gf2ModAux 0x18005 16 8 a := by
  unfold gf2Mod
  rw [bitLength_crcGenerator, crcGenerator_eq]
  have h1 : bitLength a ≤ 24 := bitLength_le a 24 ha
  have h2 := lt_two_pow_bitLength a
  symm
  apply gf2ModAux_of_lt 0x18005 (17 - 1) 8 (bitLength a - (17 - 1)) a (by omega)
  exact lt_of_lt_of_le h2 (Nat.pow_le_pow_right (by norm_num) (by omega))

theorem foldl_eq_generateChecksumLoop (buffer : List Nat) (acc : Nat) :
    generateChecksumLoop buffer acc = List.foldl (fun r c => ComputeCRC16MSB c r) acc buffer := by
  induction buffer generalizing acc with
  | nil => rfl
  | cons b rest ih => simp only [generateChecksumLoop, List.foldl_cons, ih]

/-- C3: for a byte `b` and a 16-bit register `crc`, `ComputeCRC16MSB(b, crc)` is
the remainder of `crc(x) * x^8 + b(x) * x^16` modulo `x^16 + x^15 + x^2 + 1` over
GF(2): it equals the result of the long division, has degree below 16 and
differs from the dividend by a multiple of the generator.  The register that
`generateChecksum` renders is the left fold of `ComputeCRC16MSB` from `0` over
the code units of the payload followed by the terminator `;`. -/
theorem ComputeCRC16MSB_eq_remainder (b crc : Nat) (hb : b ≤ 255) (hc : crc ≤ 0xFFFF) :
    ComputeCRC16MSB b crc = gf2Mod ((crc <<< 8) ^^^ (b <<< 16)) crcGenerator ∧
      ComputeCRC16MSB b crc < 2 ^ 16 ∧
      (∃ q : Nat, (crc <<< 8) ^^^ (b <<< 16) = gf2Mul q crcGenerator ^^^ ComputeCRC16MSB b crc) ∧
      ∀ msg : JSStr,
        crcRegister msg = List.foldl (fun r c => ComputeCRC16MSB c r) 0 (msg ++ u ";") ∧
        generateChecksum msg =
          padStart (toUpperCase (toString16
            (List.foldl (fun r c => ComputeCRC16MSB c r) 0 (msg ++ u ";")))) 4 48 := by
  have hlong := ComputeCRC16MSB_eq_gf2ModAux b crc hb hc
  refine ⟨?_, ComputeCRC16MSB_lt b crc, ?_, ?_⟩
  · rw [gf2Mod_crcGenerator _ (dividend_lt b crc hb hc)]
    exact hlong
  · refine ⟨gf2DivAux 0x18005 16 8 ((crc <<< 8) ^^^ (b <<< 16)), ?_⟩
    have hq := gf2DivAux_lt 0x18005 16 8 ((crc <<< 8) ^^^ (b <<< 16))
    have hmul : gf2Mul (gf2DivAux 0x18005 16 8 ((crc <<< 8) ^^^ (b <<< 16))) crcGenerator =
        gf2MulAux 0x18005 8 (gf2DivAux 0x18005 16 8 ((crc <<< 8) ^^^ (b <<< 16))) := by
      unfold gf2Mul
      rw [crcGenerator_eq]
      symm
      exact gf2MulAux_of_lt 0x18005 8 _ _ (bitLength_le _ 8 hq) (lt_two_pow_bitLength _)
    rw [hmul, hlong]
    exact gf2_division 0x18005 16 8 _
  · intro msg
    have h := foldl_eq_generateChecksumLoop (msg ++ u ";") 0
    refine ⟨h, ?_⟩
    rw [← h]
    rfl

/-- The byte `0x31` pushed into the empty register. -/
theorem ComputeCRC16MSB_eq_remainder_witness :
    (49 ≤ 255 ∧ 0 ≤ 0xFFFF) ∧
      ComputeCRC16MSB 49 0 = gf2Mod ((0 <<< 8) ^^^ (49 <<< 16)) crcGenerator :=
  ⟨by decide, (ComputeCRC16MSB_eq_remainder 49 0 (by decide) (by decide)).1⟩

/-! ## Theorems: exchange patterns -/

theorem split_ne_nil (sep : Nat) (s : JSStr) : split sep s ≠ [] := by
  induction s with
  | nil => simp [split]
  | cons c cs ih =>
    unfold split
    split
    · simp
    · split <;> simp

theorem split_of_not_mem (sep : Nat) (s : JSStr) (h : sep ∉ s) : split sep s = [s] := by
  induction s with
  | nil => rfl
  | cons c cs ih =>
    have hc : c ≠ sep := fun e => h (by simp [e])
    have hcs : sep ∉ cs := fun e => h (List.mem_cons_of_mem _ e)
    simp [split, hc, ih hcs]

theorem split_append_sep (sep : Nat) (s rest : JSStr) (h : sep ∉ s) :
    split sep (s ++ sep :: rest) = s :: split sep rest := by
  induction s with
  | nil => simp [split]
  | cons c cs ih =>
    have hc : c ≠ sep := fun e => h (by simp [e])
    have hcs : sep ∉ cs := fun e => h (List.mem_cons_of_mem _ e)
    simp [split, hc, ih hcs]

theorem split_frame (payload checksum : JSStr) (hp : 59 ∉ payload) (hc : 59 ∉ checksum) :
    split 59 (frameOf payload checksum) = [payload, checksum] := by
  have e : frameOf payload checksum = payload ++ 59 :: checksum := by
    simp [frameOf, u]
  rw [e, split_append_sep 59 payload checksum hp, split_of_not_mem 59 checksum hc]

theorem head?_split_eq (payload x : JSStr) :
    (split 44 payload).head? = some x ↔ tag payload = x := by
  unfold tag
  cases h : split 44 payload with
  | nil => exact absurd h (split_ne_nil 44 payload)
  | cons a l => simp

theorem settle_of_not_pending (o : Outcome) (h : o ≠ Outcome.pending) (effs : List Effect) :
    settle o effs = o := by
  unfold settle
  induction actsInOrder effs with
  | nil => rfl
  | cons a l ih =>
    rw [List.foldl_cons]
    have e : settleWith o a = o := by
      cases o with
      | pending => exact absurd rfl h
      | resolved v => cases a <;> rfl
      | rejected r => cases a <;> rfl
    rw [e]; exact ih

theorem validate_checksum_eq_true_iff (p c : JSStr) :
    validate_checksum p c = true ↔ c = generateChecksum p := by
  simp only [validate_checksum, decide_eq_true_eq]
  exact eq_comm

theorem simple_call_eq (command : JSStr) (closeAfter : Bool) (payload checksum : JSStr)
    (hp : 59 ∉ payload) (hc : 59 ∉ checksum) :
    simple_call command closeAfter (frameOf payload checksum) = some (
      (if tag payload = u "!NACK" then
        [Effect.close [Act.clearTimeout, Act.reject (notAcknowledged command)]] else []) ++
      (if trim checksum = generateChecksum payload then [] else
        [Effect.close [Act.clearTimeout,
          Act.reject (Value.text (u "Invalid Checksum returned from Pod."))]]) ++
      (if closeAfter then
        [Effect.close [Act.clearTimeout, Act.resolve (Value.raw (frameOf payload checksum))]]
       else [Effect.now Act.clearTimeout,
         Effect.now (Act.resolve (Value.raw (frameOf payload checksum)))])) := by
  unfold simple_call
  simp only [split_frame payload checksum hp hc, List.get?_cons_succ, List.get?_cons_zero,
    List.headD_cons, head?_split_eq]
  congr 3
  by_cases h : trim checksum = generateChecksum payload
  · have hv : validate_checksum payload (trim checksum) = true :=
      (validate_checksum_eq_true_iff payload (trim checksum)).2 h
    rw [hv]
    simp [h]
  · have hv : validate_checksum payload (trim checksum) = false := by
      rw [← Bool.not_eq_true, validate_checksum_eq_true_iff]; exact h
    simp [h, hv]

/-- With `closeAfter = true` a `!NACK` frame or a frame whose checksum does not
validate rejects the promise and closes the port; any other frame resolves it
with the raw frame, for both values of `closeAfter`. -/
theorem simple_call_closeAfter_true (command payload checksum : JSStr)
    (hp : 59 ∉ payload) (hc : 59 ∉ checksum) :
    (tag payload = u "!NACK" ∨ trim checksum ≠ generateChecksum payload →
      ∃ effs r, simple_call command true (frameOf payload checksum) = some effs ∧
        settle Outcome.pending effs = Outcome.rejected r ∧ closesPort effs = true) ∧
    (¬ (tag payload = u "!NACK" ∨ trim checksum ≠ generateChecksum payload) →
      ∀ closeAfter, outcome (simple_call command closeAfter (frameOf payload checksum)) =
        Outcome.resolved (Value.raw (frameOf payload checksum))) := by
  constructor
  · intro h
    rw [simple_call_eq command true payload checksum hp hc]
    by_cases h1 : tag payload = u "!NACK" <;>
      by_cases h2 : trim checksum = generateChecksum payload
    · exact ⟨_, notAcknowledged command, rfl, by
        simp [h1, h2, settle, actsInOrder, syncActs, closeCallbacks, settleWith, closesPort]⟩
    · exact ⟨_, notAcknowledged command, rfl, by
        simp [h1, h2, settle, actsInOrder, syncActs, closeCallbacks, settleWith, closesPort]⟩
    · exact absurd h (by simp [h1, h2])
    · exact ⟨_, Value.text (u "Invalid Checksum returned from Pod."), rfl, by
        simp [h1, h2, settle, actsInOrder, syncActs, closeCallbacks, settleWith, closesPort]⟩
  · intro h closeAfter
    have h1 : ¬ tag payload = u "!NACK" := fun e => h (Or.inl e)
    have h2 : trim checksum = generateChecksum payload := by
      by_contra e; exact h (Or.inr e)
    rw [simple_call_eq command closeAfter payload checksum hp hc]
    cases closeAfter <;>
      simp [h1, h2, outcome, settle, actsInOrder, syncActs, closeCallbacks, settleWith]

/-- With `closeAfter = false` every frame `payload;checksum` resolves the promise
with the raw frame: `resolve(data)` is called by the listener itself, before the
callback of any `close` can reject. -/
theorem simple_call_closeAfter_false (command payload checksum : JSStr)
    (hp : 59 ∉ payload) (hc : 59 ∉ checksum) :
    outcome (simple_call command false (frameOf payload checksum)) =
      Outcome.resolved (Value.raw (frameOf payload checksum)) := by
  rw [simple_call_eq command false payload checksum hp hc]
  by_cases h1 : tag payload = u "!NACK" <;>
    by_cases h2 : trim checksum = generateChecksum payload <;>
    simp [h1, h2, outcome, settle, actsInOrder, syncActs, closeCallbacks, settleWith]

set_option maxRecDepth 100000 in
/-- C5 (the code departs from the claim): `simple_call` with `closeAfter = false`
on the frame `!NACK;<its checksum>` asks the port to close but resolves the
promise with the raw frame, and so it does on `!ACK;0000`, whose checksum does
not validate. -/
theorem simple_call_nack_resolves :
    simple_call (u "CAL,0,1\r\n") false (validFrame (u "!NACK")) =
        some [Effect.close [Act.clearTimeout, Act.reject (notAcknowledged (u "CAL,0,1\r\n"))],
          Effect.now Act.clearTimeout,
          Effect.now (Act.resolve (Value.raw (validFrame (u "!NACK"))))] ∧
      outcome (simple_call (u "CAL,0,1\r\n") false (validFrame (u "!NACK"))) =
        Outcome.resolved (Value.raw (validFrame (u "!NACK"))) ∧
      (simple_call (u "CAL,0,1\r\n") false (validFrame (u "!NACK"))).map closesPort = some true ∧
      validate_checksum (u "!ACK") (u "0000") = false ∧
      outcome (simple_call (u "CAL,0,1\r\n") false (frameOf (u "!ACK") (u "0000"))) =
        Outcome.resolved (Value.raw (frameOf (u "!ACK") (u "0000"))) := by
  refine ⟨by decide, by decide, by decide, by decide, by decide⟩

/-! ### `long_call` -/

theorem long_call_onData_eq (expected : JSStr) (collected : List JSStr) (payload checksum : JSStr)
    (hp : 59 ∉ payload) (hc : 59 ∉ checksum) :
    long_call_onData expected collected (frameOf payload checksum) = some (
      (if tag payload = u "!ACK" then collected
        else if tag payload = u "!NACK" then collected
        else if tag payload = expected then collected ++ [payload]
        else collected),
      (if trim checksum = generateChecksum payload then [] else
        [Effect.close [Act.clearTimeout, Act.reject (Value.text (u "Invalid Checksum"))]]) ++
      (if tag payload = u "!ACK" then []
        else if tag payload = u "!NACK" then
          [Effect.close [Act.clearTimeout, Act.reject (Value.text (u "Invalid Command"))]]
        else []) ++
      (if payload = idle then
        [Effect.close [Act.clearTimeout, Act.resolve (Value.items
          (if tag payload = u "!ACK" then collected
            else if tag payload = u "!NACK" then collected
            else if tag payload = expected then collected ++ [payload]
            else collected))]] else [])) := by
  unfold long_call_onData
  simp only [split_frame payload checksum hp hc, List.get?_cons_succ, List.get?_cons_zero,
    List.headD_cons, head?_split_eq]
  by_cases h : trim checksum = generateChecksum payload
  · have hv : validate_checksum payload (trim checksum) = true :=
      (validate_checksum_eq_true_iff payload (trim checksum)).2 h
    rw [hv]
    simp [h]
  · have hv : validate_checksum payload (trim checksum) = false := by
      rw [← Bool.not_eq_true, validate_checksum_eq_true_iff]; exact h
    rw [hv]
    simp [h]

theorem settle_nil (o : Outcome) : settle o [] = o := rfl

/-- Frames before the first idle frame, all with valid checksum and none tagged
`!NACK`, leave the promise pending and extend `collected_data`. -/
theorem long_call_before_idle (expected : JSStr) (pre : List (JSStr × JSStr)) :
    ∀ (collected : List JSStr) (closed : Bool) (rest : List JSStr),
      (∀ f ∈ pre, 59 ∉ f.1 ∧ 59 ∉ f.2) →
      (∀ f ∈ pre, trim f.2 = generateChecksum f.1) →
      (∀ f ∈ pre, tag f.1 ≠ u "!NACK") →
      (∀ f ∈ pre, f.1 ≠ idle) →
      long_call expected { collected := collected, promise := Outcome.pending, closed := closed }
          (framesOf pre ++ rest) =
        long_call expected
          { collected := collected ++ (pre.map Prod.fst).filter (collectable expected),
            promise := Outcome.pending, closed := closed } rest := by
  induction pre with
  | nil => intro collected closed rest _ _ _ _; simp [framesOf]
  | cons f pre ih =>
    intro collected closed rest hparse hvalid hnack hidle
    have hp := hparse f (List.mem_cons_self _ _)
    have hv := hvalid f (List.mem_cons_self _ _)
    have hn := hnack f (List.mem_cons_self _ _)
    have hi := hidle f (List.mem_cons_self _ _)
    have ih' := fun c => ih c closed rest
      (fun g hg => hparse g (List.mem_cons_of_mem _ hg))
      (fun g hg => hvalid g (List.mem_cons_of_mem _ hg))
      (fun g hg => hnack g (List.mem_cons_of_mem _ hg))
      (fun g hg => hidle g (List.mem_cons_of_mem _ hg))
    simp only [framesOf, List.map_cons, List.cons_append, long_call]
    rw [long_call_onData_eq expected collected f.1 f.2 hp.1 hp.2]
    simp only [if_pos hv, if_neg hn, if_neg hi, List.append_nil, List.nil_append]
    by_cases ha : tag f.1 = u "!ACK"
    · have hc : collectable expected f.1 = false := by simp [collectable, ha]
      simp only [if_pos ha, List.filter_cons, hc, Bool.false_eq_true, if_false, settle_nil,
        closesPort, Bool.or_false]
      exact ih' collected
    · by_cases he : tag f.1 = expected
      · have hc : collectable expected f.1 = true := by
          unfold collectable
          rw [decide_eq_true he, decide_eq_false ha]
          rfl
        simp only [if_neg ha, if_pos he, List.filter_cons, hc, if_true, settle_nil,
          closesPort, Bool.or_false]
        simpa [framesOf] using ih' (collected ++ [f.1])
      · have hc : collectable expected f.1 = false := by simp [collectable, he]
        simp only [if_neg ha, if_neg he, List.filter_cons, hc, Bool.false_eq_true, if_false,
          settle_nil, closesPort, Bool.or_false]
        exact ih' collected

/-- Once the promise is settled, further frames do not change it. -/
theorem long_call_settled (expected : JSStr) (post : List (JSStr × JSStr)) :
    ∀ st : LongState, st.promise ≠ Outcome.pending →
      (∀ f ∈ post, 59 ∉ f.1 ∧ 59 ∉ f.2) →
      ∃ st1, long_call expected st (framesOf post) = some st1 ∧ st1.promise = st.promise ∧
        (st.closed = true → st1.closed = true) := by
  induction post with
  | nil => intro st _ _; exact ⟨st, rfl, rfl, id⟩
  | cons f post ih =>
    intro st hst hparse
    have hp := hparse f (List.mem_cons_self _ _)
    simp only [framesOf, List.map_cons, long_call]
    rw [long_call_onData_eq expected st.collected f.1 f.2 hp.1 hp.2]
    simp only [settle_of_not_pending st.promise hst]
    obtain ⟨st1, h1, h2, h3⟩ := ih
      { collected := _, promise := st.promise, closed := st.closed || closesPort _ } hst
      (fun g hg => hparse g (List.mem_cons_of_mem _ hg))
    exact ⟨st1, h1, h2, fun hc => h3 (by simp [hc])⟩

theorem framesOf_append_cons (pre post : List (JSStr × JSStr)) (f : JSStr × JSStr) :
    framesOf (pre ++ f :: post) = framesOf pre ++ (frameOf f.1 f.2 :: framesOf post) := by
  simp [framesOf]

set_option maxRecDepth 100000 in
theorem tag_idle : tag idle = u "!STATUS" := by decide

set_option maxRecDepth 100000 in
theorem status_ne_ack : u "!STATUS" ≠ u "!ACK" := by decide

/-- C6: when every frame up to the first frame whose payload is `!STATUS,IDLE`
has a checksum that validates and none is tagged `!NACK`, `long_call` resolves
with the payloads, in arrival order, of the frames up to and including that one
whose first field is the expected tag (`!ACK` frames are never collected), and
the port is asked to close. -/
theorem long_call_resolves_with_collected (expected : JSStr)
    (pre post : List (JSStr × JSStr)) (last : JSStr × JSStr)
    (hparse : ∀ f ∈ pre ++ last :: post, 59 ∉ f.1 ∧ 59 ∉ f.2)
    (hvalid : ∀ f ∈ pre ++ [last], trim f.2 = generateChecksum f.1)
    (hnack : ∀ f ∈ pre ++ [last], tag f.1 ≠ u "!NACK")
    (hpre : ∀ f ∈ pre, f.1 ≠ idle) (hlast : last.1 = idle) :
    ∃ st, long_call expected long_call_init (framesOf (pre ++ last :: post)) = some st ∧
      st.promise = Outcome.resolved
        (Value.items (((pre ++ [last]).map Prod.fst).filter (collectable expected))) ∧
      st.closed = true ∧
      (expected ≠ u "!ACK" → ∀ p, collectable expected p = decide (tag p = expected)) := by
  have hp := hparse last (by simp)
  have hv := hvalid last (by simp)
  have hn := hnack last (by simp)
  have hta : tag last.1 ≠ u "!ACK" := by rw [hlast, tag_idle]; exact status_ne_ack
  rw [framesOf_append_cons, long_call_init,
    long_call_before_idle expected pre [] false _
      (fun f hf => hparse f (by simp [hf]))
      (fun f hf => hvalid f (by simp [hf]))
      (fun f hf => hnack f (by simp [hf])) hpre]
  simp only [long_call]
  rw [long_call_onData_eq expected _ last.1 last.2 hp.1 hp.2]
  simp only [if_pos hv, if_neg hn, if_neg hta, if_pos hlast, List.nil_append]
  have hset : ∀ l : List JSStr,
      settle Outcome.pending [Effect.close [Act.clearTimeout, Act.resolve (Value.items l)]] =
        Outcome.resolved (Value.items l) := fun l => rfl
  rw [hset]
  obtain ⟨st1, h1, h2, h3⟩ := long_call_settled expected post
    { collected := _, promise := Outcome.resolved (Value.items _),
      closed := false || closesPort [Effect.close [Act.clearTimeout, Act.resolve (Value.items _)]] }
    (by simp) (fun f hf => hparse f (by simp [hf]))
  refine ⟨st1, h1, ?_, h3 rfl, ?_⟩
  · rw [h2]
    simp only [List.map_append, List.filter_append, List.map_cons, List.map_nil,
      List.filter_cons, List.filter_nil, collectable, decide_eq_false hta, Bool.not_false,
      Bool.and_true, List.nil_append]
    by_cases he : tag last.1 = expected <;> simp [he]
  · intro hne p
    unfold collectable
    by_cases he : tag p = expected
    · have hna : ¬ tag p = u "!ACK" := fun e => hne (he.symm.trans e)
      rw [decide_eq_true he, decide_eq_false hna]
      rfl
    · rw [decide_eq_false he]
      rfl

set_option maxRecDepth 100000 in
/-- The scripted device: `!ACK`, three `!RP` frames, then `!STATUS,IDLE`, with
expected tag `!RP`; and `!STATUS,IDLE` alone. -/
theorem long_call_resolves_with_collected_witness :
    (∃ st, long_call (u "!RP") long_call_init
        [validFrame (u "!ACK"), validFrame (u "!RP,1"), validFrame (u "!RP,2"),
          validFrame (u "!RP,3"), validFrame (u "!STATUS,IDLE")] = some st ∧
      st.promise = Outcome.resolved (Value.items [u "!RP,1", u "!RP,2", u "!RP,3"]) ∧
      st.closed = true ∧
      (u "!RP" ≠ u "!ACK" → ∀ p, collectable (u "!RP") p = decide (tag p = u "!RP"))) ∧
    (∃ st, long_call (u "!RP") long_call_init [validFrame (u "!STATUS,IDLE")] = some st ∧
      st.promise = Outcome.resolved (Value.items []) ∧ st.closed = true ∧
      (u "!RP" ≠ u "!ACK" → ∀ p, collectable (u "!RP") p = decide (tag p = u "!RP"))) :=
  ⟨long_call_resolves_with_collected (u "!RP")
      [(u "!ACK", generateChecksum (u "!ACK")), (u "!RP,1", generateChecksum (u "!RP,1")),
        (u "!RP,2", generateChecksum (u "!RP,2")), (u "!RP,3", generateChecksum (u "!RP,3"))]
      [] (u "!STATUS,IDLE", generateChecksum (u "!STATUS,IDLE"))
      (by decide) (by decide) (by decide) (by decide) (by decide),
    long_call_resolves_with_collected (u "!RP") [] []
      (u "!STATUS,IDLE", generateChecksum (u "!STATUS,IDLE"))
      (by decide) (by decide) (by decide) (by decide) (by decide)⟩

/-- Unless `isValid` throws, `setParam` enters `data_call` and writes its command,
whether or not it has rejected the promise before. -/
theorem setParam_writes (fnText : JSStr) (param : ParamRef) (value : ParamValue) (valid : Bool)
    (h : isValid param value = some valid) :
    written (setParam fnText param value) = [setCommand fnText param value] := by
  unfold setParam
  rw [h]
  cases hasOwnProperty param <;> cases valid <;> simp [written, data_call_start]

/-- When the parameter is an own key of the table and the value is valid,
`setParam` does not reject and writes `SET,<id>,<value>` followed by a line end. -/
theorem setParam_valid (fnText : JSStr) (param : ParamRef) (value : ParamValue)
    (h1 : hasOwnProperty param = true) (h2 : isValid param value = some true) :
    setParam fnText param value =
      [Effect.setTimeout 10000, Effect.write (setCommand fnText param value)] := by
  unfold setParam
  rw [h2]
  simp [h1, data_call_start]

/-- The executor of `getParam` always enters the data call and writes its command. -/
theorem getParam_writes (fnText : JSStr) (param : ParamRef) :
    written (getParam fnText param) = [getCommand fnText param] := by
  unfold getParam
  cases hasOwnProperty param <;> simp [written, data_call_start]

set_option maxRecDepth 100000 in
/-- C8 (the code departs from the claim): `setParam('LED_DRIVE', 256)` rejects the
promise with the invalid-value error and still enters `data_call`, which arms the
timer and writes `SET,1,256`; `setParam('LED_DRIVE', 128)` goes to the data call
without rejecting. -/
theorem setParam_invalid_value_still_writes (fnText : JSStr) :
    isValid (ParamRef.name (u "LED_DRIVE")) (numberValue 256) = some false ∧
      setParam fnText (ParamRef.name (u "LED_DRIVE")) (numberValue 256) =
        [Effect.now (Act.reject (Value.text (u "Error: 256 is not valid for LED_DRIVE."))),
          Effect.setTimeout 10000, Effect.write (u "SET,1,256\r\n")] ∧
      settle Outcome.pending (setParam fnText (ParamRef.name (u "LED_DRIVE")) (numberValue 256)) =
        Outcome.rejected (Value.text (u "Error: 256 is not valid for LED_DRIVE.")) ∧
      written (setParam fnText (ParamRef.name (u "LED_DRIVE")) (numberValue 256)) =
        [u "SET,1,256\r\n"] ∧
      setParam fnText (ParamRef.name (u "LED_DRIVE")) (numberValue 128) =
        [Effect.setTimeout 10000, Effect.write (u "SET,1,128\r\n")] := by
  refine ⟨by decide, by rfl, by rfl, by rfl, by rfl⟩

set_option maxRecDepth 100000 in
/-- C9 (the code departs from the claim): for the unknown name `foo`, `getParam`
and `setParam` reject the promise and still write a command (`GET,undefined`,
`SET,undefined,1`); for the name `isValid`, an own key of the module that is no
parameter, `getParam` does not reject at all and writes the source text of the
function, and `setParam` rejects with the invalid-value message and writes. -/
theorem unknown_parameter_still_writes (fnText : JSStr) :
    (getParam fnText (ParamRef.name (u "foo")) =
        [Effect.now (Act.reject (Value.text (u "Error: foois not a parameter."))),
          Effect.setTimeout 10000, Effect.write (u "GET,undefined\r\n")] ∧
      written (getParam fnText (ParamRef.name (u "foo"))) = [u "GET,undefined\r\n"]) ∧
    (settle Outcome.pending (setParam fnText (ParamRef.name (u "foo")) (numberValue 1)) =
        Outcome.rejected (Value.text (u "Error: foo is not a parameter.")) ∧
      written (setParam fnText (ParamRef.name (u "foo")) (numberValue 1)) =
        [u "SET,undefined,1\r\n"]) ∧
    (hasOwnProperty (ParamRef.name (u "isValid")) = true ∧
      getParam fnText (ParamRef.name (u "isValid")) =
        [Effect.setTimeout 10000, Effect.write (u "GET," ++ fnText ++ u "\r\n")] ∧
      settle Outcome.pending (getParam fnText (ParamRef.name (u "isValid"))) = Outcome.pending) ∧
    (settle Outcome.pending (setParam fnText (ParamRef.name (u "isValid")) (numberValue 1)) =
        Outcome.rejected (Value.text (u "Error: 1 is not valid for isValid.")) ∧
      written (setParam fnText (ParamRef.name (u "isValid")) (numberValue 1)) =
        [u "SET," ++ fnText ++ u ",1\r\n"]) := by
  refine ⟨⟨by rfl, by rfl⟩, ⟨by rfl, by rfl⟩, ⟨by decide, ?_, ?_⟩, ⟨?_, ?_⟩⟩
  · have h : hasOwnProperty (ParamRef.name (u "isValid")) = true := by decide
    have hp : paramId (ParamRef.name (u "isValid")) = Property.func := by decide
    simp [getParam, h, data_call_start, getCommand, hp, Property.text]
  · have h : hasOwnProperty (ParamRef.name (u "isValid")) = true := by decide
    simp [getParam, h, data_call_start, settle, actsInOrder, syncActs, closeCallbacks]
  · have h : hasOwnProperty (ParamRef.name (u "isValid")) = true := by decide
    have hv : isValid (ParamRef.name (u "isValid")) (numberValue 1) = some false := by decide
    have ht : (numberValue 1).text = u "1" := by decide
    simp only [setParam, h, hv, ht, ParamRef.text, Bool.not_true, Bool.not_false,
      Bool.false_eq_true, if_false, if_true, List.nil_append, data_call_start, settle,
      actsInOrder, syncActs, closeCallbacks, List.cons_append, List.foldl, settleWith,
      List.append_nil]
    decide
  · have hv : isValid (ParamRef.name (u "isValid")) (numberValue 1) = some false := by decide
    have hp : paramId (ParamRef.name (u "isValid")) = Property.func := by decide
    have ht : (numberValue 1).text = u "1" := by decide
    rw [setParam_writes fnText _ _ false hv]
    simp only [setCommand, hp, Property.text, ht, List.append_assoc]
    rfl

theorem toString10Core_digits (fuel : Nat) : ∀ (n : Nat) (acc : JSStr),
    (∀ c ∈ acc, 48 ≤ c ∧ c ≤ 57) → ∀ c ∈ toString10Core fuel n acc, 48 ≤ c ∧ c ≤ 57 := by
  induction fuel with
  | zero => intro n acc h; simpa [toString10Core] using h
  | succ fuel ih =>
    intro n acc h
    have hacc : ∀ c ∈ (48 + n % 10) :: acc, 48 ≤ c ∧ c ≤ 57 := by
      intro c hc
      rcases List.mem_cons.1 hc with rfl | hc
      · omega
      · exact h c hc
    simp only [toString10Core]
    split
    · exact hacc
    · exact ih _ _ hacc

theorem toString10_digits (n : Nat) : ∀ c ∈ toString10 n, 48 ≤ c ∧ c ≤ 57 :=
  toString10Core_digits (n + 1) n [] (by simp)

set_option maxRecDepth 100000 in
/-- The decimal text of a number is no key of the `params` module. -/
theorem params_toString10 (n : Nat) : params (toString10 n) = Property.undefined := by
  have hd := toString10_digits n
  have key : ∀ k : JSStr, (∃ c ∈ k, ¬ (48 ≤ c ∧ c ≤ 57)) → toString10 n ≠ k := by
    intro k ⟨c, hc, hnot⟩ e
    exact hnot (hd c (e ▸ hc))
  unfold params
  rw [if_neg (key _ (by decide)), if_neg (key _ (by decide)), if_neg (key _ (by decide)),
    if_neg (key _ (by decide)), if_neg (key _ (by decide)), if_neg (key _ (by decide)),
    if_neg (key _ (by decide))]

theorem hasOwnProperty_number (n : Nat) : hasOwnProperty (ParamRef.number n) = false := by
  simp [hasOwnProperty, ParamRef.text, params_toString10]

set_option maxRecDepth 100000 in
/-- C10 (the code departs from the claim): `getParam(1)`, the integer form of
`LED_DRIVE`, writes the same command `GET,1` as `getParam('LED_DRIVE')`, but its
promise is rejected as "not a parameter", because `hasOwnProperty` is asked
about the number; so it is for every number. -/
theorem getParam_integer_rejected (fnText : JSStr) :
    params (u "LED_DRIVE") = Property.num 1 ∧
      getParam fnText (ParamRef.name (u "LED_DRIVE")) =
        [Effect.setTimeout 10000, Effect.write (u "GET,1\r\n")] ∧
      getParam fnText (ParamRef.number 1) =
        [Effect.now (Act.reject (Value.text (u "Error: 1is not a parameter."))),
          Effect.setTimeout 10000, Effect.write (u "GET,1\r\n")] ∧
      settle Outcome.pending (getParam fnText (ParamRef.number 1)) =
        Outcome.rejected (Value.text (u "Error: 1is not a parameter.")) ∧
      ∀ n : Nat, settle Outcome.pending (getParam fnText (ParamRef.number n)) =
        Outcome.rejected (Value.text (u "Error: " ++ toString10 n ++ u "is not a parameter.")) := by
  refine ⟨by decide, by rfl, by rfl, by rfl, ?_⟩
  intro n
  simp [getParam, hasOwnProperty_number, ParamRef.text, data_call_start, settle, actsInOrder,
    syncActs, closeCallbacks, settleWith]

/-! ## Theorems: value validator -/

set_option maxRecDepth 100000 in
/-- C18 (the code departs from the claim): `isValid('SER_NUMBER', value)` throws
for every value, and `isValid('GAIN_PH', value)` is `false` for every value (the
`case` label reads `GAIN_G2`), so neither parameter can be set through
`setParam`; the four other parameters have the stated ranges. -/
theorem isValid_misses_parameters (fnText : JSStr) :
    (∀ value, isValid (ParamRef.name (u "SER_NUMBER")) value = none) ∧
    (∀ value, isValid (ParamRef.name (u "GAIN_PH")) value = some false) ∧
    isValid (ParamRef.name (u "SER_NUMBER"))
      { text := u "ABCDEF123456", number := none } = none ∧
    isValid (ParamRef.name (u "GAIN_PH")) (numberValue 128) = some false ∧
    (∀ value, settle Outcome.pending (setParam fnText (ParamRef.name (u "SER_NUMBER")) value) =
      Outcome.rejected Value.typeError ∧
      written (setParam fnText (ParamRef.name (u "SER_NUMBER")) value) = []) ∧
    (∀ value, ∃ r, settle Outcome.pending
      (setParam fnText (ParamRef.name (u "GAIN_PH")) value) = Outcome.rejected r) ∧
    (∀ n : Nat, isValid (ParamRef.name (u "LED_DRIVE")) (numberValue n) = some (decide (n ≤ 255)) ∧
      isValid (ParamRef.name (u "GAIN_REF")) (numberValue n) = some (decide (n ≤ 255)) ∧
      isValid (ParamRef.name (u "REF_BLANK")) (numberValue n) = some (decide (n ≤ 4095)) ∧
      isValid (ParamRef.name (u "G2_BLANK")) (numberValue n) = some (decide (n ≤ 4095))) := by
  have hser : ∀ value, isValid (ParamRef.name (u "SER_NUMBER")) value = none := fun _ => rfl
  have hgain : ∀ value, isValid (ParamRef.name (u "GAIN_PH")) value = some false := fun _ => rfl
  have hown1 : hasOwnProperty (ParamRef.name (u "SER_NUMBER")) = true := by decide
  have hown2 : hasOwnProperty (ParamRef.name (u "GAIN_PH")) = true := by decide
  refine ⟨hser, hgain, rfl, rfl, ?_, ?_, ?_⟩
  · intro value
    simp [setParam, hser, hown1, settle, actsInOrder, syncActs, closeCallbacks, settleWith,
      written]
  · intro value
    refine ⟨Value.text (u "Error: " ++ value.text ++ u " is not valid for " ++
      (ParamRef.name (u "GAIN_PH")).text ++ u "."), ?_⟩
    simp only [setParam, hgain, hown2, Bool.not_true, Bool.not_false, Bool.false_eq_true,
      if_false, if_true, List.nil_append, data_call_start, settle, actsInOrder, syncActs,
      closeCallbacks, List.cons_append, List.foldl, settleWith, List.append_nil]
  · intro n
    have h255 : inRange (numberValue n) 255 = decide (n ≤ 255) := by
      simp [inRange, numberValue]
    have h4095 : inRange (numberValue n) 4095 = decide (n ≤ 4095) := by
      simp [inRange, numberValue]
    refine ⟨?_, ?_, ?_, ?_⟩
    · rw [← h255]; rfl
    · rw [← h255]; rfl
    · rw [← h4095]; rfl
    · rw [← h4095]; rfl

/-! ## Theorems: recurring scheduler -/

/-- C11 (the code departs from the claim): the guard on the interval reads
`typeof interval !== 'number' && interval <= 10`, so no number is ever rejected:
`setAsyncInterval(handler, 5)`, `(handler, 0)` and `(handler, -3)` return a
running timer with one pending timeout.  A handler that is not a function is
rejected, and a numeric interval gives `stopped = false` and exactly one pending
timeout. -/
theorem setAsyncInterval_accepts_small_interval :
    setAsyncInterval true (IntervalArg.number 5) =
        Except.ok { stopped := false, id := 0,
                    timeouts := [(0, { delay := IntervalArg.number 5, cleared := false })],
                    promises := [] } ∧
      setAsyncInterval true (IntervalArg.number 0) =
        Except.ok { stopped := false, id := 0,
                    timeouts := [(0, { delay := IntervalArg.number 0, cleared := false })],
                    promises := [] } ∧
      setAsyncInterval true (IntervalArg.number (-3)) =
        Except.ok { stopped := false, id := 0,
                    timeouts := [(0, { delay := IntervalArg.number (-3), cleared := false })],
                    promises := [] } ∧
      (∀ n : Int, ∃ timer, setAsyncInterval true (IntervalArg.number n) = Except.ok timer ∧
        timer.stopped = false ∧
        pendingTimeouts timer = [(0, { delay := IntervalArg.number n, cleared := false })]) ∧
      (∀ interval, setAsyncInterval false interval =
        Except.error (u "Invalid argument: handler. Expected function")) := by
  refine ⟨rfl, rfl, rfl, ?_, fun _ => rfl⟩
  intro n
  exact ⟨_, rfl, rfl, rfl⟩

theorem pendingTimeouts_clearAsyncInterval (timer : SetAsyncIntervalTimer) :
    pendingTimeouts (clearAsyncInterval timer).1 = [] := by
  unfold pendingTimeouts clearAsyncInterval
  simp only [List.filter_eq_nil_iff, List.mem_map]
  rintro e ⟨e0, _, rfl⟩
  simp

/-- C13 (the code departs from the claim): `clearAsyncInterval` sets `stopped`,
clears every pending timeout, and an invocation that ends afterwards schedules
nothing; but the array it hands to `Promise.all` holds `undefined` in place of
every promise of `timer.promises`, so it does not wait for the invocation in
flight.  Shown on a timer whose invocation 0 is in flight, and for every timer. -/
theorem clearAsyncInterval_awaits_nothing :
    (timeoutHandler_start
        { stopped := false, id := 0,
          timeouts := [(0, { delay := IntervalArg.number 3000, cleared := false })],
          promises := [] }).2.promises = [0] ∧
      (clearAsyncInterval
        { stopped := false, id := 1,
          timeouts := [(0, { delay := IntervalArg.number 3000, cleared := false })],
          promises := [0] }).2 = [Awaited.undefined] ∧
      Awaited.promise 0 ∉ (clearAsyncInterval
        { stopped := false, id := 1,
          timeouts := [(0, { delay := IntervalArg.number 3000, cleared := false })],
          promises := [0] }).2 ∧
      (∀ (timer : SetAsyncIntervalTimer) (id : Nat),
        Awaited.promise id ∉ (clearAsyncInterval timer).2) ∧
      (∀ timer : SetAsyncIntervalTimer, (clearAsyncInterval timer).1.stopped = true ∧
        pendingTimeouts (clearAsyncInterval timer).1 = [] ∧
        (clearAsyncInterval timer).1.promises = timer.promises) ∧
      (∀ (timer : SetAsyncIntervalTimer) (id : Nat) (interval e : Int) (threw : Bool),
        timer.stopped = true →
          (timeoutHandler_finish timer id interval e threw).timeouts =
            deleteKey id timer.timeouts) := by
  refine ⟨rfl, rfl, by decide, ?_, ?_, ?_⟩
  · intro timer id h
    simp [clearAsyncInterval] at h
  · intro timer
    exact ⟨rfl, pendingTimeouts_clearAsyncInterval timer, rfl⟩
  · intro timer id interval e threw hs
    simp [timeoutHandler_finish, hs]

/-! ## Theorems: device list task -/

theorem appendDisconnectedPods_inner_eq (savedPod : SavedPod) (devices : List Device) :
    appendDisconnectedPods_inner savedPod devices =
      decide (savedPod.serialNumber ∈ devices.map fun d => d.sn) := by
  induction devices with
  | nil => simp [appendDisconnectedPods_inner]
  | cons d rest ih =>
    by_cases h : savedPod.serialNumber = d.sn
    · simp [appendDisconnectedPods_inner, h]
    · simp only [appendDisconnectedPods_inner, if_neg h, ih, List.map_cons, List.mem_cons, h,
        false_or, if_false]

theorem appendDisconnectedPods_outer_eq (savedPods : List SavedPod) :
    ∀ devices : List Device, appendDisconnectedPods_outer savedPods devices =
      devices ++ (missingPods (devices.map fun d => d.sn) savedPods).map disconnectedRecord := by
  induction savedPods with
  | nil => intro devices; simp [appendDisconnectedPods_outer, missingPods]
  | cons p rest ih =>
    intro devices
    simp only [appendDisconnectedPods_outer, appendDisconnectedPods_inner_eq, missingPods]
    by_cases h : p.serialNumber ∈ devices.map fun d => d.sn
    · simp only [h, decide_True, Bool.not_true, Bool.false_eq_true, if_false, if_true]
      exact ih devices
    · simp only [h, decide_False, Bool.not_false, if_true, if_false]
      rw [ih (devices ++ [disconnectedRecord p])]
      simp [disconnectedRecord]

theorem missingPods_sublist (savedPods : List SavedPod) :
    ∀ seen : List JSStr, (missingPods seen savedPods).Sublist savedPods := by
  induction savedPods with
  | nil => intro seen; simp [missingPods]
  | cons p rest ih =>
    intro seen
    unfold missingPods
    split
    · exact (ih seen).cons p
    · exact (ih _).cons₂ p

theorem missingPods_not_seen (savedPods : List SavedPod) :
    ∀ seen : List JSStr, ∀ p ∈ missingPods seen savedPods, p.serialNumber ∉ seen := by
  induction savedPods with
  | nil => intro seen p hp; simp [missingPods] at hp
  | cons q rest ih =>
    intro seen p hp
    unfold missingPods at hp
    split at hp
    · exact ih seen p hp
    · rename_i hq
      rcases List.mem_cons.1 hp with rfl | hp
      · exact hq
      · intro hs
        exact ih _ p hp (List.mem_append_left _ hs)

theorem missingPods_nodup (savedPods : List SavedPod) :
    ∀ seen : List JSStr, ((missingPods seen savedPods).map fun p => p.serialNumber).Nodup := by
  induction savedPods with
  | nil => intro seen; simp [missingPods]
  | cons q rest ih =>
    intro seen
    unfold missingPods
    split
    · exact ih seen
    · rw [List.map_cons, List.nodup_cons]
      refine ⟨?_, ih _⟩
      intro hmem
      obtain ⟨p, hp, hpq⟩ := List.mem_map.1 hmem
      exact missingPods_not_seen rest _ p hp (by simp [hpq])

theorem missingPods_covers (savedPods : List SavedPod) :
    ∀ seen : List JSStr, ∀ p ∈ savedPods,
      p.serialNumber ∈ seen ∨
        p.serialNumber ∈ (missingPods seen savedPods).map fun q => q.serialNumber := by
  induction savedPods with
  | nil => intro seen p hp; simp at hp
  | cons q rest ih =>
    intro seen p hp
    unfold missingPods
    rcases List.mem_cons.1 hp with rfl | hp
    · split
      · rename_i h; exact Or.inl h
      · exact Or.inr (by simp)
    · split
      · exact ih seen p hp
      · rcases ih (seen ++ [q.serialNumber]) p hp with h | h
        · rcases List.mem_append.1 h with h | h
          · exact Or.inl h
          · right
            simp only [List.mem_singleton] at h
            simp [h]
        · exact Or.inr (by simp only [List.map_cons, List.mem_cons]; exact Or.inr h)

/-- C17: after `appendDisconnectedPods(devices, savedPods)` the list is the
original list followed by one record `{id, sn, name}` without `com` for each
saved pod, in `savedPods` order, whose serial number is the `sn` of no original
and no previously appended entry; the appended pods form a sublist of
`savedPods` with pairwise different serial numbers; every saved serial number
occurs as the `sn` of an entry; with no saved pods the list is unchanged. -/
theorem appendDisconnectedPods_appends_missing (devices : List Device)
    (savedPods : List SavedPod) :
    appendDisconnectedPods devices savedPods =
        devices ++ (missingPods (devices.map fun d => d.sn) savedPods).map disconnectedRecord ∧
      (∀ d ∈ (missingPods (devices.map fun d => d.sn) savedPods).map disconnectedRecord,
        d.com = none ∧ ∃ p ∈ savedPods, d.id = some p.id ∧ d.sn = p.serialNumber ∧
          d.name = some p.name ∧ p.serialNumber ∉ devices.map fun d => d.sn) ∧
      (missingPods (devices.map fun d => d.sn) savedPods).Sublist savedPods ∧
      ((missingPods (devices.map fun d => d.sn) savedPods).map fun p => p.serialNumber).Nodup ∧
      (∀ p ∈ savedPods,
        p.serialNumber ∈ (appendDisconnectedPods devices savedPods).map fun d => d.sn) ∧
      appendDisconnectedPods devices [] = devices := by
  have heq : appendDisconnectedPods devices savedPods =
      devices ++ (missingPods (devices.map fun d => d.sn) savedPods).map disconnectedRecord := by
    unfold appendDisconnectedPods
    split
    · rename_i h
      have : savedPods = [] := List.length_eq_zero.1 h
      subst this
      simp [missingPods]
    · exact appendDisconnectedPods_outer_eq savedPods devices
  refine ⟨heq, ?_, missingPods_sublist savedPods _, missingPods_nodup savedPods _, ?_, rfl⟩
  · intro d hd
    obtain ⟨p, hp, rfl⟩ := List.mem_map.1 hd
    exact ⟨rfl, p, (missingPods_sublist savedPods _).subset hp, rfl, rfl, rfl,
      missingPods_not_seen savedPods _ p hp⟩
  · intro p hp
    rw [heq, List.map_append, List.mem_append]
    rcases missingPods_covers savedPods (devices.map fun d => d.sn) p hp with h | h
    · exact Or.inl h
    · right
      simpa [List.map_map, Function.comp, disconnectedRecord] using h

/-! ## Theorems: device registry -/

theorem hasOwn_iff {β : Type} (key : JSStr) (obj : List (JSStr × β)) :
    hasOwn key obj = true ↔ key ∈ obj.map Prod.fst := by
  unfold hasOwn
  simp only [List.any_eq_true, decide_eq_true_eq, List.mem_map]

theorem _getPorts_forEach_ports (results : List PortInfo) :
    ∀ (ports : List JSStr) (m : DeviceManager),
      (_getPorts_forEach results (ports, m)).1 =
        ports ++ (results.filter isRecognized).map fun p => p.path := by
  induction results with
  | nil => intro ports m; simp [_getPorts_forEach]
  | cons port rest ih =>
    intro ports m
    by_cases h : isRecognized port = true
    · simp only [_getPorts_forEach, h, if_true, ih, List.filter_cons, List.map_cons,
        List.append_assoc, List.singleton_append]
    · simp only [_getPorts_forEach, h, if_false, ih, List.filter_cons, Bool.false_eq_true]

theorem _getPorts_forEach_extends (results : List PortInfo) :
    ∀ (ports : List JSStr) (m : DeviceManager),
      ∃ added, (_getPorts_forEach results (ports, m)).2.cmdHandler = m.cmdHandler ++ added ∧
        (∀ e ∈ added, hasOwn e.1 m.cmdHandler = false) ∧
        (_getPorts_forEach results (ports, m)).2.devices = m.devices ∧
        (_getPorts_forEach results (ports, m)).2.trakpods = m.trakpods := by
  induction results with
  | nil => intro ports m; exact ⟨[], by simp [_getPorts_forEach]⟩
  | cons port rest ih =>
    intro ports m
    by_cases h : isRecognized port = true
    · by_cases hown : hasOwn port.path m.cmdHandler = true
      · simp only [_getPorts_forEach, h, if_true, hown, Bool.not_true, Bool.false_eq_true,
          if_false]
        exact ih _ m
      · have hown' : hasOwn port.path m.cmdHandler = false := by simpa using hown
        simp only [_getPorts_forEach, h, if_true, hown', Bool.not_false]
        obtain ⟨added, h1, h2, h3, h4⟩ := ih (ports ++ [port.path])
          { m with cmdHandler := m.cmdHandler ++ [(port.path, m.created)],
                   created := m.created + 1 }
        refine ⟨(port.path, m.created) :: added, ?_, ?_, h3, h4⟩
        · rw [h1]; simp
        · intro e he
          rcases List.mem_cons.1 he with rfl | he
          · exact hown'
          · have := h2 e he
            rw [← Bool.not_eq_true, hasOwn_iff] at this ⊢
            intro hm
            exact this (by simp only [List.map_append, List.mem_append]; exact Or.inl hm)
    · simp only [_getPorts_forEach, h, if_false, Bool.false_eq_true]
      exact ih ports m

theorem _getPorts_forEach_keys (results : List PortInfo) :
    ∀ (ports : List JSStr) (m : DeviceManager) (key : JSStr),
      key ∈ (_getPorts_forEach results (ports, m)).2.cmdHandler.map Prod.fst ↔
        key ∈ m.cmdHandler.map Prod.fst ∨
          key ∈ (results.filter isRecognized).map fun p => p.path := by
  induction results with
  | nil => intro ports m key; simp [_getPorts_forEach]
  | cons port rest ih =>
    intro ports m key
    by_cases h : isRecognized port = true
    · by_cases hown : hasOwn port.path m.cmdHandler = true
      · simp only [_getPorts_forEach, h, if_true, hown, Bool.not_true, Bool.false_eq_true,
          if_false, ih, List.filter_cons, List.map_cons, List.mem_cons]
        have hk := (hasOwn_iff port.path m.cmdHandler).1 hown
        constructor
        · rintro (h1 | h1)
          · exact Or.inl h1
          · exact Or.inr (Or.inr h1)
        · rintro (h1 | h1 | h1)
          · exact Or.inl h1
          · exact Or.inl (h1 ▸ hk)
          · exact Or.inr h1
      · have hown' : hasOwn port.path m.cmdHandler = false := by simpa using hown
        simp only [_getPorts_forEach, h, if_true, hown', Bool.not_false, ih, List.filter_cons,
          List.map_cons, List.mem_cons, List.map_append, List.mem_append, List.map_nil,
          List.not_mem_nil, or_false]
        tauto
    · simp only [_getPorts_forEach, h, if_false, Bool.false_eq_true, ih, List.filter_cons]

theorem _getPorts_forEach_nodup (results : List PortInfo) :
    ∀ (ports : List JSStr) (m : DeviceManager), (m.cmdHandler.map Prod.fst).Nodup →
      ((_getPorts_forEach results (ports, m)).2.cmdHandler.map Prod.fst).Nodup := by
  induction results with
  | nil => intro ports m h; simpa [_getPorts_forEach] using h
  | cons port rest ih =>
    intro ports m hn
    by_cases h : isRecognized port = true
    · by_cases hown : hasOwn port.path m.cmdHandler = true
      · simp only [_getPorts_forEach, h, if_true, hown, Bool.not_true, Bool.false_eq_true,
          if_false]
        exact ih _ m hn
      · have hown' : hasOwn port.path m.cmdHandler = false := by simpa using hown
        simp only [_getPorts_forEach, h, if_true, hown', Bool.not_false]
        apply ih
        have hnot : port.path ∉ m.cmdHandler.map Prod.fst := by
          rw [← hasOwn_iff]; simp [hown']
        simp only [List.map_append, List.map_cons, List.map_nil]
        rw [List.nodup_append]
        refine ⟨hn, by simp, ?_⟩
        intro a ha hb
        simp only [List.mem_singleton] at hb
        exact hnot (hb ▸ ha)
    · simp only [_getPorts_forEach, h, if_false, Bool.false_eq_true]
      exact ih ports m hn

theorem getKey_append_of_mem {β : Type} (key : JSStr) (obj added : List (JSStr × β))
    (h : key ∈ obj.map Prod.fst) : getKey key (obj ++ added) = getKey key obj := by
  induction obj with
  | nil => simp at h
  | cons e rest ih =>
    obtain ⟨k, v⟩ := e
    by_cases hk : k = key
    · simp only [List.cons_append, getKey, if_pos hk]
    · simp only [List.cons_append, getKey, if_neg hk]
      apply ih
      simp only [List.map_cons, List.mem_cons] at h
      rcases h with h | h
      · exact absurd h.symm hk
      · exact h

/-- C15: `_getPorts` returns, in enumeration order, the paths of exactly the
enumerated endpoints with `productId` `5740` and `vendorId` `0483`; it only adds
entries to `cmdHandler`, one for each returned endpoint that had none, so the
queue of every endpoint that had one is unchanged; after step 1 of `getDevices`
the keys of `cmdHandler` are exactly the returned endpoints, each once. -/
theorem _getPorts_queue_invariant (m : DeviceManager) (results : List PortInfo)
    (hnodup : (m.cmdHandler.map Prod.fst).Nodup) :
    (_getPorts m results).1 = (results.filter isRecognized).map (fun p => p.path) ∧
      (∀ p : PortInfo, isRecognized p = true ↔
        (p.productId = some (u "5740") ∧ p.vendorId = some (u "0483"))) ∧
      ((∀ p ∈ results, isRecognized p = false) → (_getPorts m results).1 = []) ∧
      (∃ added, (_getPorts m results).2.cmdHandler = m.cmdHandler ++ added ∧
        ∀ e ∈ added, hasOwn e.1 m.cmdHandler = false ∧ e.1 ∈ (_getPorts m results).1) ∧
      (∀ key, hasOwn key m.cmdHandler = true →
        getKey key (_getPorts m results).2.cmdHandler = getKey key m.cmdHandler) ∧
      (∀ key ∈ (_getPorts m results).1, hasOwn key (_getPorts m results).2.cmdHandler = true) ∧
      (∀ key, key ∈ (cleanQueues (_getPorts m results).1
          (_getPorts m results).2).cmdHandler.map Prod.fst ↔ key ∈ (_getPorts m results).1) ∧
      ((cleanQueues (_getPorts m results).1
          (_getPorts m results).2).cmdHandler.map Prod.fst).Nodup := by
  have hports := _getPorts_forEach_ports results [] m
  have hkeys := _getPorts_forEach_keys results [] m
  obtain ⟨added, hadd, hnew, _, _⟩ := _getPorts_forEach_extends results [] m
  simp only [List.nil_append] at hports
  unfold _getPorts
  refine ⟨hports, ?_, ?_, ⟨added, hadd, ?_⟩, ?_, ?_, ?_, ?_⟩
  · intro p; simp [isRecognized]
  · intro h
    rw [hports, List.map_eq_nil_iff, List.filter_eq_nil_iff]
    intro p hp; simp [h p hp]
  · intro e he
    refine ⟨hnew e he, ?_⟩
    have hmem : e.1 ∈ (_getPorts_forEach results ([], m)).2.cmdHandler.map Prod.fst := by
      rw [hadd]
      simp only [List.map_append, List.mem_append]
      exact Or.inr (List.mem_map_of_mem _ he)
    rcases (hkeys e.1).1 hmem with h | h
    · have := hnew e he
      rw [← Bool.not_eq_true, hasOwn_iff] at this
      exact absurd h this
    · rw [hports]; exact h
  · intro key hk
    rw [hadd]
    exact getKey_append_of_mem key _ _ ((hasOwn_iff key _).1 hk)
  · intro key hk
    rw [hasOwn_iff, hkeys]
    rw [hports] at hk
    exact Or.inr hk
  · intro key
    simp only [cleanQueues, List.mem_map, List.mem_filter, decide_eq_true_eq]
    constructor
    · rintro ⟨e, ⟨_, he⟩, rfl⟩; exact he
    · intro hk
      have hmem : key ∈ (_getPorts_forEach results ([], m)).2.cmdHandler.map Prod.fst := by
        rw [hkeys]; rw [hports] at hk; exact Or.inr hk
      obtain ⟨e, he, rfl⟩ := List.mem_map.1 hmem
      exact ⟨e, ⟨he, hk⟩, rfl⟩
  · have hn := _getPorts_forEach_nodup results [] m hnodup
    simp only [cleanQueues]
    exact (List.Nodup.sublist ((List.filter_sublist _).map Prod.fst) hn)

set_option maxRecDepth 100000 in
/-- A fresh manager and an enumeration with one recognized endpoint. -/
theorem _getPorts_queue_invariant_witness :
    (DeviceManager.new.cmdHandler.map Prod.fst).Nodup ∧
      (_getPorts DeviceManager.new
        [{ path := u "COM3", productId := some (u "5740"), vendorId := some (u "0483") },
          { path := u "COM1", productId := none, vendorId := none }]).1 = [u "COM3"] :=
  ⟨List.nodup_nil,
    (_getPorts_queue_invariant DeviceManager.new
      [{ path := u "COM3", productId := some (u "5740"), vendorId := some (u "0483") },
        { path := u "COM1", productId := none, vendorId := none }] List.nodup_nil).1⟩

theorem cleanQueues_getPorts_devices (m : DeviceManager) (results : List PortInfo) :
    (cleanQueues (_getPorts m results).1 (_getPorts m results).2).devices = m.devices := by
  obtain ⟨_, _, _, h3, _⟩ := _getPorts_forEach_extends results [] m
  simpa [cleanQueues, _getPorts] using h3

theorem getDevices_devices (m : DeviceManager) (enumeration : Option (List PortInfo))
    (probe : JSStr → Probe) (activeTest : Option Bool) (order : List JSStr → List JSStr) :
    (getDevices m enumeration probe activeTest order).2.devices = m.devices := by
  cases enumeration with
  | none => rfl
  | some results =>
    have h := cleanQueues_getPorts_devices m results
    simp only [getDevices, _getDeviceInfo]
    split_ifs <;> exact h

set_option maxRecDepth 100000 in
/-- C16 (the code departs from the claim): `_getDeviceInfo` assigns the map of
the cycle to `this.trakpods`, and nothing ever writes `this.devices`, the index
that the classification reads; so the index is the same after every cycle, and a
pod that stays attached is queued for the post-connect action in the second
cycle as in the first. -/
theorem known_devices_index_never_updated :
    (∀ (m : DeviceManager) (enumeration : Option (List PortInfo)) (probe : JSStr → Probe)
        (activeTest : Option Bool) (order : List JSStr → List JSStr),
        (getDevices m enumeration probe activeTest order).2.devices = m.devices) ∧
      getDevices DeviceManager.new (some [recognizedPort (u "COM3")])
          (fun _ => reachablePod (u "SN1") (u "1.0") true none) (some true) id =
        (CycleResult.pods [liveEntry (u "COM3") (u "SN1") (u "1.0")],
          { cmdHandler := [(u "COM3", 0)], devices := [],
            trakpods := some [(u "SN1", u "COM3")], created := 1 }) ∧
      (discover DeviceManager.new
          (fun _ => reachablePod (u "SN1") (u "1.0") true none) [u "COM3"]).reconnected_pods =
        [(u "COM3", u "SN1")] ∧
      (discover { cmdHandler := [(u "COM3", 0)], devices := [],
                  trakpods := some [(u "SN1", u "COM3")], created := 1 }
          (fun _ => reachablePod (u "SN1") (u "1.0") true none) [u "COM3"]).reconnected_pods =
        [(u "COM3", u "SN1")] := by
  refine ⟨getDevices_devices, by decide, by decide, by decide⟩

end MyDevice
